import Mathlib

/-!
Verification of the fq bit-level decoding engine specification against the
repository's format bodies.

The decoder cursor (`D`), the field emitters, the scalar/mapper layer and the
format dispatch are modelled from the specification (sections 3, 4.1-4.6 and
4.7), since the engine package itself is not part of the provided sources.
The format bodies (`decodeIPv4`, `decodeEthernetFrame`, `vorbisDecode`,
`metadatablockDecode`, `decodePcap`, `ofileDecode`, `decodeHTML`) are
translated from the repository's Go sources.
-/

set_option linter.unusedVariables false
set_option maxRecDepth 100000

namespace Fq

/-- Byte/bit endianness of multi-byte integer reads. -/
inductive Endian
  | big
  | little
deriving Repr, DecidableEq

/-- Numeric display hint of a scalar. -/
inductive DispF
  | hexFmt
  | binFmt
  | octFmt
deriving Repr, DecidableEq

/-- Modelled from the spec: the decode error kinds of section 7. -/
inductive DErr
  | outOfRange
  | assertMismatch (msg : String)
  | mapperErr (msg : String)
  | dupField (name : String)
  | noFormatMatched
  | fatalMsg (msg : String)
deriving Repr, DecidableEq

/-- Raw decoded value: tagged variant of the spec's scalar value kinds.
Raw byte-range reads keep the exact bit list. -/
inductive Val
  | u (v : Nat)
  | s (v : Int)
  | bl (b : Bool)
  | bts (bs : List Bool)
  | st (s : String)
  | nullV
deriving Repr, DecidableEq

/-- Modelled from the spec: a scalar carries the decoded primitive `actual`,
an optional symbolic replacement `sym`, an optional `description`, a display
format hint, and the soft validation note written by `ValidateU`-style
mappers. -/
structure Scalar where
  actual : Val
  sym : Option String := none
  description : Option String := none
  dispFormat : Option DispF := none
  validity : Option String := none
deriving Repr, DecidableEq

/-- A node of the value tree: leaf (bit range + scalar), struct or array.
Ranges are `(start, len)` pairs in bits, relative to the owning format's bit
buffer. -/
inductive Node
  | lf (name : String) (start len : Nat) (sc : Scalar)
  | strct (name : String) (start len : Nat) (children : List Node)
  | arr (name : String) (start len : Nat) (children : List Node)
deriving Repr

/-- Name (or array element name) of a node. -/
def Node.name : Node → String
  | .lf n _ _ _ => n
  | .strct n _ _ _ => n
  | .arr n _ _ _ => n

/-- Bit-range start of a node. -/
def Node.start : Node → Nat
  | .lf _ s _ _ => s
  | .strct _ s _ _ => s
  | .arr _ s _ _ => s

/-- Bit-range length of a node. -/
def Node.len : Node → Nat
  | .lf _ _ l _ => l
  | .strct _ _ l _ => l
  | .arr _ _ l _ => l

/-- True for leaf nodes. -/
def Node.isLeaf : Node → Bool
  | .lf _ _ _ _ => true
  | _ => false

/-- Scalar of a leaf node. -/
def Node.scalar? : Node → Option Scalar
  | .lf _ _ _ sc => some sc
  | _ => none

/-- The typed in-argument record passed through format dispatch.
`nilIn` models an absent (Go `nil`) argument. -/
structure HTMLInArg where
  seq : Bool
  array : Bool
deriving Repr, DecidableEq

/-- Modelled from the spec: the per-group decode in-argument variants used by
the embedded formats (`LinkFrameIn`, `InetPacketIn`, `IPPacketIn`, `HTMLIn`);
absence is `nilIn`. -/
inductive FormatIn
  | nilIn
  | linkFrame (typ : Nat) (isLittleEndian : Bool)
  | inetPacket (etherType : Nat)
  | ipPacket (protocol : Nat)
  | htmlArg (h : HTMLInArg)
deriving Repr, DecidableEq

/-- Modelled from the spec: the decoder cursor. It owns the bit source view,
the current position, the current default endianness, the children emitted in
the current scope, the current frame end (`limit`), the non-fatal warning
list and the fatal error slot.  Every operation is a no-op once `err` is
set, which models the fatal unwind of section 5. -/
structure D where
  bits : List Bool
  pos : Nat
  limit : Nat
  endian : Endian
  children : List Node
  inArray : Bool
  warnings : List String
  err : Option DErr
deriving Repr

/-- Set the fatal error slot. -/
def D.fail (d : D) (e : DErr) : D := { d with err := some e }

/-- MSB-first value of a bit list. -/
def natOfBits (l : List Bool) : Nat :=
  l.foldl (fun a b => 2 * a + (if b then 1 else 0)) 0

/-- The 8 bits of a byte, MSB first. -/
def bitsOfByte (b : Nat) : List Bool :=
  (List.range 8).map (fun i => b.testBit (7 - i))

/-- Bit list of a byte list, each byte MSB first. -/
def bytesToBits (bs : List Nat) : List Bool :=
  bs.foldr (fun b acc => bitsOfByte b ++ acc) []

/-- Reverse the byte order of a `w`-byte value (how little-endian integer
reads are produced from MSB-first raw reads, per spec section 4.1). -/
def byteRev (w v : Nat) : Nat :=
  (List.range w).foldl (fun a i => a * 256 + (v >>> (8 * i)) % 256) 0

/-- Interpret an MSB-first raw read of `n` bits in the given endianness. -/
def applyEndian (e : Endian) (n v : Nat) : Nat :=
  match e with
  | .big => v
  | .little => byteRev ((n + 7) / 8) v

/-- The bit slice `[start, start+len)` of a bit list. -/
def bitSlice (bits : List Bool) (start len : Nat) : List Bool :=
  (bits.drop start).take len

/-- Raw MSB-first read of `n` bits at the cursor, `none` when the read would
pass the current frame end. -/
def rawRead (d : D) (n : Nat) : Option Nat :=
  if d.pos + n ≤ d.limit then some (natOfBits (bitSlice d.bits d.pos n)) else none

/-- Big-endian value of a byte list. -/
def natOfBytesBE (bs : List Nat) : Nat :=
  bs.foldl (fun a b => a * 256 + b % 256) 0

/-- A mapper: pure scalar transformation, may fail (spec section 4.2). -/
def Mapper := Scalar → Except DErr Scalar

/-- Apply mappers left to right; a failing mapper aborts the emission. -/
def applyMappers (ms : List Mapper) (s : Scalar) : Except DErr Scalar :=
  ms.foldlM (fun s m => m s) s

/-- The unsigned actual of a scalar (`ActualU`); 0 on other variants. -/
def Scalar.actualU (s : Scalar) : Nat :=
  match s.actual with
  | .u v => v
  | _ => 0

/-- Modelled from the spec: `UToSymStr` sets `Sym` to the table entry or
leaves the scalar unchanged. -/
def uToSymStr (tbl : List (Nat × String)) : Mapper := fun s =>
  match s.actual with
  | .u v =>
    match tbl.find? (fun p => p.1 = v) with
    | some p => .ok { s with sym := some p.2 }
    | none => .ok s
  | _ => .ok s

/-- Modelled from the spec: `UToScalar` sets both `Sym` and `Description`
from the table entry when present. -/
def uToScalarMap (tbl : List (Nat × Option String × Option String)) : Mapper := fun s =>
  match s.actual with
  | .u v =>
    match tbl.find? (fun p => p.1 = v) with
    | some p => .ok { s with sym := p.2.1, description := p.2.2 }
    | none => .ok s
  | _ => .ok s

/-- Modelled from the spec: `UToDescription` sets `Description` only. -/
def uToDescr (tbl : List (Nat × String)) : Mapper := fun s =>
  match s.actual with
  | .u v =>
    match tbl.find? (fun p => p.1 = v) with
    | some p => .ok { s with description := some p.2 }
    | none => .ok s
  | _ => .ok s

/-- `ActualHex` display-format mapper. -/
def actualHex : Mapper := fun s => .ok { s with dispFormat := some .hexFmt }

/-- Modelled from the spec: `AssertU` fails (fatally, outside a probe) when
the actual value is not among the allowed ones. -/
def assertU (vs : List Nat) : Mapper := fun s =>
  if vs.contains s.actualU then .ok s
  else .error (.assertMismatch "AssertU")

/-- Modelled from the spec: `AssertStr` fails when the string actual differs. -/
def assertStr (t : String) : Mapper := fun s =>
  match s.actual with
  | .st v => if v = t then .ok s else .error (.assertMismatch "AssertStr")
  | _ => .error (.assertMismatch "AssertStr")

/-- Modelled from the spec: `ValidateU` marks non-matching scalars with a
validation note but does not fail. -/
def validateU (vs : List Nat) : Mapper := fun s =>
  if vs.contains s.actualU then .ok s
  else .ok { s with validity := some "invalid" }

/-- Modelled from the spec: `ValidateUBytes` compares the unsigned actual
against the big-endian value of the given bytes and records the validation
annotation ("valid"/"invalid"); it never fails (spec sections 4.2 and 8,
scenario 1). -/
def validateUBytes (bs : List Nat) : Mapper := fun s =>
  if s.actualU = natOfBytesBE bs then .ok { s with validity := some "valid" }
  else .ok { s with validity := some "invalid" }

/-- Modelled from the spec: `BitBufIsZero` asserts that every bit of a raw
byte-range scalar is zero. -/
def bitBufIsZero : Mapper := fun s =>
  match s.actual with
  | .bts l => if l.all (fun b => b = false) then .ok s
              else .error (.assertMismatch "BitBufIsZero")
  | _ => .error (.assertMismatch "BitBufIsZero")

/-- Whether a sibling with this name already exists in the current scope
(struct scopes only; array elements may repeat names). -/
def dupName (d : D) (name : String) : Bool :=
  !d.inArray && d.children.any (fun c => c.name = name)

/-- Modelled from the spec: `FieldU` — read `bits` bits as unsigned in the
current endianness, create a leaf under the parent, apply mappers in order,
advance the position.  Fails on out-of-range, mapper failure, duplicate
sibling name, or a width above 64. -/
def fieldU (name : String) (n : Nat) (ms : List Mapper) (d : D) : Nat × D :=
  if d.err.isSome then (0, d) else
  if n > 64 then (0, d.fail .outOfRange) else
  if dupName d name then (0, d.fail (.dupField name)) else
  match rawRead d n with
  | none => (0, d.fail .outOfRange)
  | some raw =>
    let v := applyEndian d.endian n raw
    match applyMappers ms { actual := .u v } with
    | .error e => (v, d.fail e)
    | .ok sc =>
      (v, { d with pos := d.pos + n,
                   children := d.children ++ [.lf name d.pos n sc] })

/-- Modelled from the spec: `FieldS` — signed two's complement read. -/
def fieldS (name : String) (n : Nat) (ms : List Mapper) (d : D) : Int × D :=
  if d.err.isSome then (0, d) else
  if n > 64 then (0, d.fail .outOfRange) else
  if dupName d name then (0, d.fail (.dupField name)) else
  match rawRead d n with
  | none => (0, d.fail .outOfRange)
  | some raw =>
    let v := applyEndian d.endian n raw
    let sv : Int := if n > 0 ∧ v ≥ 2 ^ (n - 1) then (v : Int) - 2 ^ n else v
    match applyMappers ms { actual := .s sv } with
    | .error e => (sv, d.fail e)
    | .ok sc =>
      (sv, { d with pos := d.pos + n,
                    children := d.children ++ [.lf name d.pos n sc] })

/-- Modelled from the spec: `FieldBool` — 1-bit boolean leaf. -/
def fieldBool (name : String) (ms : List Mapper) (d : D) : Bool × D :=
  if d.err.isSome then (false, d) else
  if dupName d name then (false, d.fail (.dupField name)) else
  match rawRead d 1 with
  | none => (false, d.fail .outOfRange)
  | some raw =>
    let b := raw = 1
    match applyMappers ms { actual := .bl b } with
    | .error e => (b, d.fail e)
    | .ok sc =>
      (b, { d with pos := d.pos + 1,
                   children := d.children ++ [.lf name d.pos 1 sc] })

/-- Modelled from the spec: `FieldRawLen` — a leaf holding the raw bit range
(no scalar conversion).  A negative length (Go `int64`) is an error;
zero-length ranges are legal. -/
def fieldRawLen (name : String) (len : Int) (ms : List Mapper) (d : D) : D :=
  if d.err.isSome then d else
  if dupName d name then d.fail (.dupField name) else
  if len < 0 then d.fail .outOfRange else
  let n := len.toNat
  if d.pos + n ≤ d.limit then
    match applyMappers ms { actual := .bts (bitSlice d.bits d.pos n) } with
    | .error e => d.fail e
    | .ok sc =>
      { d with pos := d.pos + n,
               children := d.children ++ [.lf name d.pos n sc] }
  else d.fail .outOfRange

/-- ASCII string of a byte list (the model's rendering of UTF-8 text reads). -/
def strOfBytes (bs : List Nat) : String :=
  String.mk (bs.map (fun b => Char.ofNat (b % 256)))

/-- Bytes of the `n`-byte range at the cursor. -/
def bytesAt (d : D) (n : Nat) : List Nat :=
  (List.range n).map (fun i => natOfBits (bitSlice d.bits (d.pos + 8 * i) 8))

/-- Modelled from the spec: `FieldUTF8` — read `nBytes` bytes as a string
scalar. -/
def fieldUTF8 (name : String) (nBytes : Nat) (ms : List Mapper) (d : D) : String × D :=
  if d.err.isSome then ("", d) else
  if dupName d name then ("", d.fail (.dupField name)) else
  if d.pos + 8 * nBytes ≤ d.limit then
    let t := strOfBytes (bytesAt d nBytes)
    match applyMappers ms { actual := .st t } with
    | .error e => (t, d.fail e)
    | .ok sc =>
      (t, { d with pos := d.pos + 8 * nBytes,
                   children := d.children ++ [.lf name d.pos (8 * nBytes) sc] })
  else ("", d.fail .outOfRange)

/-- Trim a string at its first NUL (`FieldUTF8NullFixedLen` keeps the bytes
before the first NUL but consumes all bytes). -/
def trimAtNul (bs : List Nat) : List Nat :=
  bs.takeWhile (fun b => b ≠ 0)

/-- Modelled from the spec: `FieldUTF8NullFixedLen` — read `fixed` bytes,
string actual trimmed at the first NUL.  A negative count (Go `int`
arithmetic at call sites) is an error. -/
def fieldUTF8NullFixedLen (name : String) (fixed : Int) (d : D) : D :=
  if d.err.isSome then d else
  if dupName d name then d.fail (.dupField name) else
  if fixed < 0 then d.fail .outOfRange else
  let n := fixed.toNat
  if d.pos + 8 * n ≤ d.limit then
    let sc : Scalar := { actual := .st (strOfBytes (trimAtNul (bytesAt d n))) }
    { d with pos := d.pos + 8 * n,
             children := d.children ++ [.lf name d.pos (8 * n) sc] }
  else d.fail .outOfRange

/-- Index of the first zero byte at the cursor, scanning at most `fuel`
bytes. -/
def findNulIdx (d : D) : Nat → Nat → Option Nat
  | 0, _ => none
  | fuel + 1, i =>
    if d.pos + 8 * (i + 1) ≤ d.limit then
      if natOfBits (bitSlice d.bits (d.pos + 8 * i) 8) = 0 then some i
      else findNulIdx d fuel (i + 1)
    else none

/-- Modelled from the spec: `FieldUTF8Null` — read a NUL-terminated string,
consuming the terminator. -/
def fieldUTF8Null (name : String) (d : D) : D :=
  if d.err.isSome then d else
  if dupName d name then d.fail (.dupField name) else
  match findNulIdx d (d.limit + 1) 0 with
  | none => d.fail .outOfRange
  | some i =>
    let sc : Scalar := { actual := .st (strOfBytes (bytesAt d i)) }
    { d with pos := d.pos + 8 * (i + 1),
             children := d.children ++ [.lf name d.pos (8 * (i + 1)) sc] }

/-- Modelled from the spec: `FieldStruct` — create a struct child, run the
body with it as parent, set the child's range from the entry/exit
positions.  A body error propagates; the partially built child stays in the
tree (section 7: partial trees are preserved). -/
def fieldStruct (name : String) (body : D → D) (d : D) : D :=
  if d.err.isSome then d else
  if dupName d name then d.fail (.dupField name) else
  let sub := body { d with children := [], inArray := false }
  let node := Node.strct name d.pos (sub.pos - d.pos) sub.children
  { sub with children := d.children ++ [node], inArray := d.inArray }

/-- Modelled from the spec: `FieldArray` — same for an array scope, where
element names may repeat. -/
def fieldArray (name : String) (body : D → D) (d : D) : D :=
  if d.err.isSome then d else
  if dupName d name then d.fail (.dupField name) else
  let sub := body { d with children := [], inArray := true }
  let node := Node.arr name d.pos (sub.pos - d.pos) sub.children
  { sub with children := d.children ++ [node], inArray := d.inArray }

/-- `FieldStructArrayLoop` with a counter-bounded condition, as used by the
embedded formats: `count` element structs decoded in order. -/
def fieldStructArrayCount (name elem : String) (count : Nat) (body : D → D) (d : D) : D :=
  fieldArray name (fun d => (List.range count).foldl (fun d _ => fieldStruct elem body d) d) d

/-- A `while !d.End()` loop with explicit fuel; fuel exhaustion with the
condition still true is a decode failure (the Go loops always advance). -/
def loopUntilEnd (body : D → D) : Nat → D → D
  | 0, d => if d.err.isSome then d else
            if d.pos ≥ d.limit then d else d.fail (.fatalMsg "loop fuel")
  | fuel + 1, d =>
    if d.err.isSome then d else
    if d.pos ≥ d.limit then d
    else loopUntilEnd body fuel (body d)

/-- Modelled from the spec: `FramedFn` — push a frame of `len` bits that
bounds `End()` and guards reads; on exit the position is `frame_start +
len` and the surrounding limit and endianness are restored. -/
def framedFn (len : Int) (body : D → D) (d : D) : D :=
  if d.err.isSome then d else
  if len < 0 then d.fail .outOfRange else
  let n := len.toNat
  if d.pos + n ≤ d.limit then
    let sub := body { d with limit := d.pos + n }
    if sub.err.isSome then { sub with limit := d.limit, endian := d.endian }
    else { sub with pos := d.pos + n, limit := d.limit, endian := d.endian }
  else d.fail .outOfRange

/-- Modelled from the spec: `RangeFn` — temporarily relocate the cursor to
an absolute range of the format's buffer, run the body, restore the prior
position and frame. -/
def rangeFn (start len : Int) (body : D → D) (d : D) : D :=
  if d.err.isSome then d else
  if start < 0 ∨ len < 0 then d.fail .outOfRange else
  if start.toNat + len.toNat ≤ d.bits.length then
    let sub := body { d with pos := start.toNat, limit := start.toNat + len.toNat }
    { sub with pos := d.pos, limit := d.limit }
  else d.fail .outOfRange

/-- `SeekRel` — move the position by a signed bit delta, staying inside the
frame. -/
def seekRel (delta : Int) (d : D) : D :=
  if d.err.isSome then d else
  let np : Int := (d.pos : Int) + delta
  if 0 ≤ np ∧ np ≤ (d.limit : Int) then { d with pos := np.toNat }
  else d.fail .outOfRange

/-- `SeekAbs` — absolute variant of `seekRel`. -/
def seekAbs (p : Int) (d : D) : D :=
  if d.err.isSome then d else
  if 0 ≤ p ∧ p ≤ (d.limit : Int) then { d with pos := p.toNat }
  else d.fail .outOfRange

/-- `Fatalf` — abort the decode with a fatal error. -/
def fatalf (msg : String) (d : D) : D :=
  if d.err.isSome then d else d.fail (.fatalMsg msg)

/-- `Errorf` — record a non-fatal warning; the decode continues. -/
def errorf (msg : String) (d : D) : D :=
  if d.err.isSome then d else { d with warnings := d.warnings ++ [msg] }

/-- Raw (field-less) unsigned read, as Go's `d.U8()`/`d.U32()`. -/
def rawU (n : Nat) (d : D) : Nat × D :=
  if d.err.isSome then (0, d) else
  match rawRead d n with
  | none => (0, d.fail .outOfRange)
  | some raw => (applyEndian d.endian n raw, { d with pos := d.pos + n })

/-- Go's `d.U32LE()`: an explicit little-endian 32-bit raw read. -/
def rawU32LE (d : D) : Nat × D :=
  if d.err.isSome then (0, d) else
  match rawRead d 32 with
  | none => (0, d.fail .outOfRange)
  | some raw => (byteRev 4 raw, { d with pos := d.pos + 32 })

/-- `FieldUScalarFn` — the body reads raw bits and constructs the scalar
itself; the leaf's range is whatever the body consumed and the returned
unsigned actual is the call's value. -/
def fieldUScalarFn (name : String) (f : D → Scalar × D) (d : D) : Nat × D :=
  if d.err.isSome then (0, d) else
  if dupName d name then (0, d.fail (.dupField name)) else
  let (sc, sub) := f d
  if sub.err.isSome then (0, sub)
  else (sc.actualU,
        { sub with children := d.children ++ [.lf name d.pos (sub.pos - d.pos) sc] })

/-- `FieldUFn` — like `fieldUScalarFn` with a plain unsigned result. -/
def fieldUFn (name : String) (f : D → Nat × D) (d : D) : Nat × D :=
  fieldUScalarFn name (fun d => let (v, d) := f d; ({ actual := .u v }, d)) d

/-- `FieldValueU` — a synthesized zero-length unsigned leaf. -/
def fieldValueU (name : String) (v : Nat) (ms : List Mapper) (d : D) : D :=
  if d.err.isSome then d else
  if dupName d name then d.fail (.dupField name) else
  match applyMappers ms { actual := .u v } with
  | .error e => d.fail e
  | .ok sc => { d with children := d.children ++ [.lf name d.pos 0 sc] }

/-- `FieldValueS` — a synthesized zero-length signed leaf. -/
def fieldValueS (name : String) (v : Int) (d : D) : D :=
  if d.err.isSome then d else
  if dupName d name then d.fail (.dupField name) else
  { d with children := d.children ++ [.lf name d.pos 0 { actual := .s v }] }

/-- `FieldValueStr` — a synthesized zero-length string leaf. -/
def fieldValueStr (name : String) (v : String) (d : D) : D :=
  if d.err.isSome then d else
  if dupName d name then d.fail (.dupField name) else
  { d with children := d.children ++ [.lf name d.pos 0 { actual := .st v }] }

/-- A registered format: its decode function over a fresh cursor.  Groups
are ordered lists of formats, probed in registration order. -/
structure Format where
  decodeFn : FormatIn → D → D

/-- An ordered format group. -/
def Group := List Format

/-- Fresh cursor over a bit buffer (spec section 4.5: dispatch runs the
format body against a fresh cursor over the sub-source; the default
endianness is big). -/
def freshD (bits : List Bool) : D :=
  { bits := bits, pos := 0, limit := bits.length, endian := .big,
    children := [], inArray := false, warnings := [], err := none }

/-- Run one candidate format over a bit buffer. -/
def runSub (f : Format) (inArg : FormatIn) (bits : List Bool) : D :=
  f.decodeFn inArg (freshD bits)

/-- Modelled from the spec: group dispatch — try each candidate in order
under a fault barrier; the first accepting candidate's completed cursor is
returned, a failed candidate's partial tree is discarded. -/
def tryGroup (g : Group) (inArg : FormatIn) (bits : List Bool) : Option D :=
  g.findSome? (fun f =>
    let r := runSub f inArg bits
    if r.err.isSome then none else some r)

/-- The raw-bytes scalar of the trailing unconsumed region of a framed
sub-format decode (the implicit `unknown` leaf of spec section 6). -/
def unknownTail (bits : List Bool) (consumed n : Nat) : List Node :=
  if consumed < n then
    [Node.lf "unknown" consumed (n - consumed) { actual := .bts (bitSlice bits consumed (n - consumed)) }]
  else []

/-- Modelled from the spec: `FieldFormatLen` — dispatch confined to `len`
bits; the position advances by exactly `len` regardless of how much the
sub-format consumed, trailing unconsumed bits materialize as an `unknown`
leaf inside the child, and the child's range covers the whole confined
region.  Dispatch failure is a decode error. -/
def fieldFormatLen (name : String) (len : Int) (g : Group) (inArg : FormatIn) (d : D) : D :=
  if d.err.isSome then d else
  if dupName d name then d.fail (.dupField name) else
  if len < 0 then d.fail .outOfRange else
  let n := len.toNat
  if d.pos + n ≤ d.limit then
    let sb := bitSlice d.bits d.pos n
    match tryGroup g inArg sb with
    | none => d.fail .noFormatMatched
    | some s =>
      let node := Node.strct name d.pos n (s.children ++ unknownTail sb s.pos n)
      { d with pos := d.pos + n, children := d.children ++ [node],
               warnings := d.warnings ++ s.warnings }
  else d.fail .outOfRange

/-- Modelled from the spec: `FieldFormatOrRawLen` — attempt dispatch over
`len` bits; on failure create a raw-bytes leaf of `len` bits instead. -/
def fieldFormatOrRawLen (name : String) (len : Int) (g : Group) (inArg : FormatIn) (d : D) : D :=
  if d.err.isSome then d else
  if dupName d name then d.fail (.dupField name) else
  if len < 0 then d.fail .outOfRange else
  let n := len.toNat
  if d.pos + n ≤ d.limit then
    let sb := bitSlice d.bits d.pos n
    match tryGroup g inArg sb with
    | none => fieldRawLen name len [] d
    | some s =>
      let node := Node.strct name d.pos n (s.children ++ unknownTail sb s.pos n)
      { d with pos := d.pos + n, children := d.children ++ [node],
               warnings := d.warnings ++ s.warnings }
  else d.fail .outOfRange

/-- Modelled from the spec: `FieldFormat` — dispatch over the remaining bit
range; the caller's position advances by exactly the bits the sub-format
consumed (it takes ownership of consumed bits). -/
def fieldFormat (name : String) (g : Group) (inArg : FormatIn) (d : D) : D :=
  if d.err.isSome then d else
  if dupName d name then d.fail (.dupField name) else
  let sb := bitSlice d.bits d.pos (d.limit - d.pos)
  match tryGroup g inArg sb with
  | none => d.fail .noFormatMatched
  | some s =>
    let node := Node.strct name d.pos s.pos s.children
    { d with pos := d.pos + s.pos, children := d.children ++ [node],
             warnings := d.warnings ++ s.warnings }

/-- Modelled from the spec: `d.Format` — dispatch a sub-format inline into
the current scope (same buffer and coordinates, children merged). -/
def dFormat (g : Group) (inArg : FormatIn) (d : D) : D :=
  if d.err.isSome then d else
  match (g.findSome? (fun f =>
    let r := f.decodeFn inArg { d with children := [] }
    if r.err.isSome then none else some r)) with
  | none => d.fail .noFormatMatched
  | some s => { s with children := d.children ++ s.children }

/-- `FieldMustGet(name).TryScalarFn(mappers…)` — the late scalar rewrite of
spec section 4.4: look the targeted field up by name among the scope's
emitted children and rewrite its scalar in place; a mapper failure leaves
the tree unchanged (the `Try` error is returned to the caller), a missing
field is fatal (`MustGet`).  Spec sections 4.4 and 8 (scenario 1) together
with the IPv4 call site force lookup by name rather than
most-recent-sibling. -/
def tryScalarFnOn (name : String) (ms : List Mapper) (d : D) : D :=
  if d.err.isSome then d else
  match d.children.findIdx? (fun c => c.name = name) with
  | none => d.fail (.fatalMsg "FieldMustGet")
  | some i =>
    match d.children.get? i with
    | some (.lf nm st ln sc) =>
      match applyMappers ms sc with
      | .error _ => d
      | .ok sc2 => { d with children := d.children.set i (.lf nm st ln sc2) }
    | _ => d.fail (.fatalMsg "FieldMustGet")

/-- The spec's stated rule for late scalar rewrites, written from the
spec's words (section 4.4): a rewrite is allowed only when the targeted
field is the most recently emitted sibling of the scope. -/
def specLateRewriteAllowed (children : List Node) (name : String) : Bool :=
  match children.getLast? with
  | some c => c.name = name
  | none => false

/-- Run a format body over a byte buffer as a root decode. -/
def runFormat (f : FormatIn → D → D) (inArg : FormatIn) (bytes : List Nat) : D :=
  f inArg (freshD (bytesToBits bytes))

/-- Go `uint64` subtraction (wrapping). -/
def goU64sub (a b : Nat) : Nat := (a + 2 ^ 64 - b % 2 ^ 64) % 2 ^ 64

/-- Go `int64` reinterpretation of a `uint64` value. -/
def i64OfU64 (n : Nat) : Int :=
  if n % 2 ^ 64 < 2 ^ 63 then (n % 2 ^ 64 : Int) else (n % 2 ^ 64 : Int) - 2 ^ 64

/-- Go `int64` multiplication (wrapping). -/
def goI64mul (a b : Int) : Int := (a * b + 2 ^ 63) % 2 ^ 64 - 2 ^ 63

/-- Lowercase hex digit. -/
def hexDigitChar (n : Nat) : Char :=
  if n < 10 then Char.ofNat (48 + n) else Char.ofNat (87 + n)

/-- Two lowercase hex digits of a byte (Go's `%.2x`). -/
def hexByteStr (b : Nat) : String :=
  String.mk [hexDigitChar (b / 16 % 16), hexDigitChar (b % 16)]

/-- Dotted-decimal rendering of a 32-bit IPv4 address (Go's
`net.IP.String` on a 4-byte address). -/
def ipv4SymStr (v : Nat) : String :=
  String.intercalate "." ([24, 16, 8, 0].map (fun sh => toString (v >>> sh % 256)))

/-- Colon-separated lowercase hex rendering of the low 6 bytes of a 64-bit
value (Go's `fmt.Sprintf` over bytes 2..7 in `mapUToEtherSym`). -/
def etherSymStr (v : Nat) : String :=
  String.intercalate ":" ([40, 32, 24, 16, 8, 0].map (fun sh => hexByteStr (v >>> sh % 256)))

/-- `mapUToIPv4Sym` (format/inet/ipv4_packet.go): set `Sym` to the dotted
IPv4 string of the unsigned actual. -/
def mapUToIPv4Sym : Mapper := fun s =>
  .ok { s with sym := some (ipv4SymStr (s.actualU % 2 ^ 32)) }

/-- `mapUToEtherSym` (the Ethernet frame source): set `Sym` to the
colon-hex MAC string of the unsigned actual. -/
def mapUToEtherSym : Mapper := fun s =>
  .ok { s with sym := some (etherSymStr s.actualU) }

/-- Modelled from the spec: `format.EtherTypeIPv4`, the IPv4 EtherType
constant referenced by `decodeIPv4` and registered by the Ethernet frame
(its definition file is not among the provided sources). -/
def etherTypeIPv4 : Nat := 0x0800

/-- Modelled from the spec: `format.LinkTypeETHERNET`, the PCAP link-type
constant for Ethernet (its definition file is not among the provided
sources). -/
def linkTypeETHERNET : Nat := 1

/-- Modelled from the spec: `format.EtherTypeMap`, the EtherType symbol
table (not among the provided sources); only the IPv4 entry matters to the
claims. -/
def etherTypeMap : List (Nat × String) := [(0x0800, "ipv4")]

/-- Modelled from the spec: `format.IPv4ProtocolMap`, the IP protocol-name
table (not among the provided sources); no claim depends on its entries. -/
def ipv4ProtocolMap : List (Nat × String) := []

/-- Modelled from the spec: `format.LinkTypeMap`, the PCAP link-type name
table (not among the provided sources); no claim depends on its entries. -/
def linkTypeMap : List (Nat × String) := []

/-- `ipv4OptionsMap` (format/inet/ipv4_packet.go). -/
def ipv4OptionsMap : List (Nat × Option String × Option String) :=
  [ (0, some "end", some "End of options list"),
    (1, some "nop", some "No operation"),
    (2, none, some "Security"),
    (3, none, some "Loose Source Routing"),
    (9, none, some "Strict Source Routing"),
    (7, none, some "Record Route"),
    (8, none, some "Stream ID"),
    (4, none, some "Internet Timestamp") ]

/-- One step of the 16-bit ones-complement accumulation (end-around
carry). -/
def onesComp16Add (a w : Nat) : Nat :=
  let s := a + w
  let s := s % 65536 + s / 65536
  s % 65536 + s / 65536

/-- Right-pad a bit list to a given length. -/
def padRight (l : List Bool) (n : Nat) : List Bool :=
  l ++ List.replicate (n - l.length) false

/-- 16-bit words of a bit list, tail zero-padded. -/
def words16 (l : List Bool) : List Nat :=
  (List.range ((l.length + 15) / 16)).map
    (fun i => natOfBits (padRight (bitSlice l (16 * i) 16) 16))

/-- Modelled from the spec: the `checksum.IPv4` sink — a 16-bit
ones-complement sum over the bytes streamed into it; `Sum` returns the
complement as two big-endian bytes (spec section 4.7). -/
def ipv4ChecksumBytes (l : List Bool) : List Nat :=
  let c := 65535 - (words16 l).foldl onesComp16Add 0
  [c / 256, c % 256]

/-- Body of one element of the IPv4 `options` array
(format/inet/ipv4_packet.go, the `FieldStruct("option", …)` closure). -/
def ipv4OptionBody (d : D) : D :=
  fieldStruct "option" (fun d =>
    let (_, d) := fieldBool "copied" [] d
    let (_, d) := fieldU "class" 2 [] d
    let (kind, d) := fieldU "number" 5 [uToScalarMap ipv4OptionsMap] d
    if kind = 0 ∨ kind = 1 then d
    else
      let (l, d) := fieldU "length" 8 [] d
      fieldRawLen "data" (goI64mul (i64OfU64 (goU64sub l 2)) 8) [] d) d

/-- The in-argument check opening `decodeIPv4`
(format/inet/ipv4_packet.go lines 53-55): a present `InetPacketIn` with a
non-IPv4 EtherType is fatal; any other (or absent) argument is ignored. -/
def ipv4InCheck (inArg : FormatIn) (d : D) : D :=
  match inArg with
  | .inetPacket et => if et ≠ etherTypeIPv4 then fatalf "incorrect ethertype" d else d
  | _ => d

/-- The body of `decodeIPv4` after its in-argument check
(format/inet/ipv4_packet.go lines 57-114), with the `IP_PACKET` dependency
group passed explicitly (the Go source resolves it from the registry). -/
def decodeIPv4Body (ipPacketGroup : Group) (d : D) : D :=
  let (_, d) := fieldU "version" 4 [] d
  let (ihl, d) := fieldU "ihl" 4 [] d
  let (_, d) := fieldU "dscp" 6 [] d
  let (_, d) := fieldU "ecn" 2 [] d
  let (totalLength, d) := fieldU "total_length" 16 [] d
  let (_, d) := fieldU "identification" 16 [] d
  let (_, d) := fieldU "reserved" 1 [] d
  let (_, d) := fieldBool "dont_fragment" [] d
  let (moreFragments, d) := fieldBool "more_fragments" [] d
  let (fragmentOffset, d) := fieldU "fragment_offset" 13 [] d
  let (_, d) := fieldU "ttl" 8 [] d
  let (protocol, d) := fieldU "protocol" 8 [uToSymStr ipv4ProtocolMap] d
  let checksumStart := d.pos
  let (_, d) := fieldU "header_checksum" 16 [actualHex] d
  let checksumEnd := d.pos
  let (_, d) := fieldU "source_ip" 32 [mapUToIPv4Sym, actualHex] d
  let (_, d) := fieldU "destination_ip" 32 [mapUToIPv4Sym, actualHex] d
  let optionsLen : Int := ((ihl : Int) - 5) * 8 * 4
  let d := if optionsLen > 0 then
             framedFn optionsLen
               (fieldArray "options" (fun d => loopUntilEnd ipv4OptionBody (d.limit + 1) d)) d
           else d
  let headerEnd := d.pos
  let sum := ipv4ChecksumBytes
               (bitSlice d.bits 0 checksumStart ++
                bitSlice d.bits checksumEnd (headerEnd - checksumEnd))
  let d := tryScalarFnOn "header_checksum" [validateUBytes sum, actualHex] d
  let dataLen : Int := goI64mul (i64OfU64 (goU64sub totalLength (ihl * 4))) 8
  if moreFragments ∨ fragmentOffset > 0 then
    fieldRawLen "payload" dataLen [] d
  else
    fieldFormatOrRawLen "payload" dataLen ipPacketGroup (.ipPacket protocol) d

/-- `decodeIPv4` (format/inet/ipv4_packet.go): the in-argument check
followed by the header/payload body. -/
def decodeIPv4 (ipPacketGroup : Group) (inArg : FormatIn) (d : D) : D :=
  decodeIPv4Body ipPacketGroup (ipv4InCheck inArg d)

/-- The prefix of `decodeIPv4` up to (and excluding) the late checksum
rewrite (format/inet/ipv4_packet.go lines 52-98), returning the computed
checksum bytes together with the cursor, so the scope can be observed at
rewrite time.  It repeats `decodeIPv4` verbatim up to that point. -/
def ipv4HeaderScan (ipPacketGroup : Group) (inArg : FormatIn) (d : D) : List Nat × D :=
  let d := ipv4InCheck inArg d
  let (_, d) := fieldU "version" 4 [] d
  let (ihl, d) := fieldU "ihl" 4 [] d
  let (_, d) := fieldU "dscp" 6 [] d
  let (_, d) := fieldU "ecn" 2 [] d
  let (_, d) := fieldU "total_length" 16 [] d
  let (_, d) := fieldU "identification" 16 [] d
  let (_, d) := fieldU "reserved" 1 [] d
  let (_, d) := fieldBool "dont_fragment" [] d
  let (_, d) := fieldBool "more_fragments" [] d
  let (_, d) := fieldU "fragment_offset" 13 [] d
  let (_, d) := fieldU "ttl" 8 [] d
  let (_, d) := fieldU "protocol" 8 [uToSymStr ipv4ProtocolMap] d
  let checksumStart := d.pos
  let (_, d) := fieldU "header_checksum" 16 [actualHex] d
  let checksumEnd := d.pos
  let (_, d) := fieldU "source_ip" 32 [mapUToIPv4Sym, actualHex] d
  let (_, d) := fieldU "destination_ip" 32 [mapUToIPv4Sym, actualHex] d
  let optionsLen : Int := ((ihl : Int) - 5) * 8 * 4
  let d := if optionsLen > 0 then
             framedFn optionsLen
               (fieldArray "options" (fun d => loopUntilEnd ipv4OptionBody (d.limit + 1) d)) d
           else d
  let headerEnd := d.pos
  let sum := ipv4ChecksumBytes
               (bitSlice d.bits 0 checksumStart ++
                bitSlice d.bits checksumEnd (headerEnd - checksumEnd))
  (sum, d)

/-- The `IP_PACKET` dependency group of `decodeIPv4`: no format among the
provided sources registers in `IP_PACKET`, so the group resolved from the
registry is empty. -/
def ipv4IpPacketGroup : Group := []

/-- The registered IPv4 packet format descriptor. -/
def ipv4PacketFormat : Format := ⟨decodeIPv4 ipv4IpPacketGroup⟩

/-- The `INET_PACKET` group: among the provided sources only `IPV4_PACKET`
registers in it. -/
def inetPacketGroup : Group := [ipv4PacketFormat]

/-- The in-argument check opening `decodeEthernetFrame`: a present
`LinkFrameIn` with a non-Ethernet link type is fatal; any other (or absent)
argument is ignored. -/
def etherInCheck (inArg : FormatIn) (d : D) : D :=
  match inArg with
  | .linkFrame t _ => if t ≠ linkTypeETHERNET then fatalf "wrong link type" d else d
  | _ => d

/-- The body of `decodeEthernetFrame` after its in-argument check, with
the `INET_PACKET` dependency group passed explicitly. -/
def decodeEthernetFrameBody (etherInetPacketGroup : Group) (d : D) : D :=
  let (_, d) := fieldU "destination" 48 [mapUToEtherSym, actualHex] d
  let (_, d) := fieldU "source" 48 [mapUToEtherSym, actualHex] d
  let (etherType, d) := fieldU "ether_type" 16 [uToSymStr etherTypeMap, actualHex] d
  fieldFormatOrRawLen "payload" ((d.limit : Int) - (d.pos : Int))
    etherInetPacketGroup (.inetPacket etherType) d

/-- `decodeEthernetFrame` (the Ethernet 802.3 frame source): the
in-argument check followed by the frame body. -/
def decodeEthernetFrame (etherInetPacketGroup : Group) (inArg : FormatIn) (d : D) : D :=
  decodeEthernetFrameBody etherInetPacketGroup (etherInCheck inArg d)

/-- The registered Ethernet 802.3 frame format descriptor. -/
def ether8023FrameFormat : Format := ⟨decodeEthernetFrame inetPacketGroup⟩

/-- The `LINK_FRAME` group: among the provided sources only
`ETHER8023_FRAME` registers in it. -/
def linkFrameGroup : Group := [ether8023FrameFormat]

/-- `packetTypeNames` (the Vorbis packet source). -/
def packetTypeNames : List (Nat × String) :=
  [(0, "Audio"), (1, "Identification"), (3, "Comment"), (5, "Setup")]

/-- The `packet_type` scalar constructor of `vorbisDecode` (the closure
passed to `FieldUScalarFn` in the Vorbis packet source): read the raw
byte, normalize even values to 0 (audio), and attach the looked-up name
(or "unknown") as the symbol. -/
def vorbisPacketTypeScalar (d : D) : Scalar × D :=
  let (t, d) := rawU 8 d
  let t := if t % 2 = 0 then 0 else t
  let nm := match packetTypeNames.find? (fun p => p.1 = t) with
            | some p => p.2
            | none => "unknown"
  ({ actual := .u t, sym := some nm }, d)

/-- `vorbisDecode` (the Vorbis packet source), with the `VORBIS_COMMENT`
dependency group passed explicitly.  The `packet_type` scalar is built by
the format body itself: the raw byte is read, even values are normalized to
0 (audio), and the symbol is looked up from `packetTypeNames`. -/
def vorbisDecode (vorbisCommentGroup : Group) (inArg : FormatIn) (d : D) : D :=
  let d := if d.err.isSome then d else { d with endian := .little }
  let (packetType, d) := fieldUScalarFn "packet_type" vorbisPacketTypeScalar d
  let d := if packetType = 1 ∨ packetType = 5 ∨ packetType = 3 then
             (fieldUTF8 "magic" 6 [assertStr "vorbis"] d).2
           else if packetType = 0 then d
           else fatalf "unknown packet type" d
  if packetType = 0 then d
  else if packetType = 1 then
    let (_, d) := fieldU "vorbis_version" 32 [validateU [0]] d
    let (_, d) := fieldU "audio_channels" 8 [] d
    let (_, d) := fieldU "audio_sample_rate" 32 [] d
    let (_, d) := fieldU "bitrate_maximum" 32 [] d
    let (_, d) := fieldU "bitrate_nominal" 32 [] d
    let (_, d) := fieldU "bitrate_minimum" 32 [] d
    let (_, d) := fieldUFn "blocksize_1" (fun d => let (v, d) := rawU 4 d; (1 <<< v, d)) d
    let (_, d) := fieldUFn "blocksize_0" (fun d => let (v, d) := rawU 4 d; (1 <<< v, d)) d
    let d := fieldRawLen "padding0" 7 [bitBufIsZero] d
    (fieldU "framing_flag" 1 [validateU [1]] d).2
  else if packetType = 5 then
    let (_, d) := fieldUFn "vorbis_codebook_count" (fun d => let (v, d) := rawU 8 d; (v + 1, d)) d
    let (_, d) := fieldU "codecooke_sync" 24 [validateU [0x564342], actualHex] d
    let (_, d) := fieldU "codebook_dimensions" 16 [] d
    (fieldU "codebook_entries" 24 [] d).2
  else if packetType = 3 then
    let d := fieldFormat "comment" vorbisCommentGroup .nilIn d
    let d := fieldRawLen "padding0" 7 [bitBufIsZero] d
    (fieldU "frame_bit" 1 [validateU [1]] d).2
  else d

/-- The `VORBIS_COMMENT` dependency group: no format among the provided
sources registers it, so the registry-resolved group is empty. -/
def vorbisCommentGroup : Group := []

/-- `metadataBlockNames` (format/flac/flac_metadatablock.go). -/
def metadataBlockNames : List (Nat × String) :=
  [(0, "streaminfo"), (1, "padding"), (2, "application"), (3, "seektable"),
   (4, "vorbis_comment"), (5, "cuesheet"), (6, "picture")]

/-- `metadatablockDecode` (format/flac/flac_metadatablock.go), with the
three dependency groups passed explicitly.  The `FlacMetadatablockOut`
return record is not modelled (no claim concerns it). -/
def metadatablockDecode (streaminfoG pictureG commentG : Group) (inArg : FormatIn) (d : D) : D :=
  let (_, d) := fieldBool "last_block" [] d
  let (typ, d) := fieldU "type" 7 [uToSymStr metadataBlockNames] d
  let (length, d) := fieldU "length" 24 [] d
  if typ = 0 then dFormat streaminfoG .nilIn d
  else if typ = 4 then
    fieldFormatLen "comment" (i64OfU64 (length * 8 % 2 ^ 64)) commentG .nilIn d
  else if typ = 6 then
    fieldFormatLen "picture" (i64OfU64 (length * 8 % 2 ^ 64)) pictureG .nilIn d
  else if typ = 3 then
    let seektableCount := length / 18
    fieldArray "seekpoints" (fun d =>
      (List.range seektableCount).foldl (fun d _ =>
        fieldStruct "seekpoint" (fun d =>
          let (_, d) := fieldU "sample_number" 64
            [uToScalarMap [(0xffffffffffffffff, none, some "Placeholder")]] d
          let (_, d) := fieldU "offset" 64 [] d
          (fieldU "number_of_samples" 16 [] d).2) d) d) d
  else if typ = 2 then
    let (_, d) := fieldUTF8 "id" 4 [] d
    fieldRawLen "data" (i64OfU64 (goU64sub length 4 * 8 % 2 ^ 64)) [] d
  else
    fieldRawLen "data" (i64OfU64 (length * 8 % 2 ^ 64)) [] d

/-- The FLAC dependency groups resolved from the provided sources: none of
`FLAC_STREAMINFO`, `FLAC_PICTURE` or `VORBIS_COMMENT` is registered by the
provided source files. -/
def flacStreaminfoGroup : Group := []

/-- See `flacStreaminfoGroup`. -/
def flacPictureGroup : Group := []

/-- `bigEndian` magic constant (format/pcap/pcap.go). -/
def pcapBigEndianMagic : Nat := 0xa1b2c3d4

/-- `littleEndian` magic constant (format/pcap/pcap.go). -/
def pcapLittleEndianMagic : Nat := 0xd4c3b2a1

/-- `endianMap` (format/pcap/pcap.go). -/
def endianMap : List (Nat × String) :=
  [(0xa1b2c3d4, "big_endian"), (0xd4c3b2a1, "little_endian")]

/-- Body of one element of the PCAP `packets` array
(format/pcap/pcap.go, the `FieldStruct("packet", …)` closure).  Feeding the
captured bytes to the flow reassembler is modelled as a no-op: the
reassembler is the purely additive collaborator of spec section 4.7 and is
modelled as yielding no reassembled buffers. -/
def pcapPacketBody (linkG : Group) (linkType : Nat) (d : D) : D :=
  fieldStruct "packet" (fun d =>
    let (_, d) := fieldU "ts_sec" 32 [] d
    let (_, d) := fieldU "ts_usec" 32 [] d
    let (inclLen, d) := fieldU "incl_len" 32 [] d
    let (origLen, d) := fieldU "orig_len" 32 [] d
    let d := if inclLen > origLen then errorf "incl_len > orig_len" d else d
    fieldFormatOrRawLen "packet" (goI64mul (i64OfU64 inclLen) 8) linkG
      (.linkFrame linkType (d.endian = .little)) d) d

/-- `decodePcap` (format/pcap/pcap.go), with the dependency groups passed
explicitly.  `fieldFlows` (format/pcap/shared.go) runs with the modelled
flow reassembler yielding no reassembled datagrams and no TCP connections,
so its two arrays are empty. -/
def decodePcap (linkG tcpG ipv4G : Group) (inArg : FormatIn) (d : D) : D :=
  let (endianV, d) := fieldU "magic" 32
    [assertU [pcapBigEndianMagic, pcapLittleEndianMagic], uToSymStr endianMap, actualHex] d
  let d := if d.err.isSome then d
           else if endianV = pcapBigEndianMagic then { d with endian := .big }
           else if endianV = pcapLittleEndianMagic then { d with endian := .little }
           else fatalf "unknown endian" d
  let (_, d) := fieldU "version_major" 16 [] d
  let (_, d) := fieldU "version_minor" 16 [] d
  let (_, d) := fieldS "thiszone" 32 [] d
  let (_, d) := fieldU "sigfigs" 32 [] d
  let (_, d) := fieldU "snaplen" 32 [] d
  let (linkType, d) := fieldU "network" 32 [uToSymStr linkTypeMap] d
  let d := fieldArray "packets" (fun d =>
    loopUntilEnd (pcapPacketBody linkG linkType) (d.limit + 1) d) d
  let d := fieldArray "ipv4_reassembled" (fun d => d) d
  fieldArray "tcp_connections" (fun d => d) d

/-- `fieldStruct` with a body that also returns a value (the Go bodies
communicate such values through closure variables). -/
def fieldStructV (name : String) (dflt : α) (body : D → α × D) (d : D) : α × D :=
  if d.err.isSome then (dflt, d) else
  if dupName d name then (dflt, d.fail (.dupField name)) else
  let (v, sub) := body { d with children := [], inArray := false }
  let node := Node.strct name d.pos (sub.pos - d.pos) sub.children
  (v, { sub with children := d.children ++ [node], inArray := d.inArray })

/-- `fieldArray` with a body that also returns a value. -/
def fieldArrayV (name : String) (dflt : α) (body : D → α × D) (d : D) : α × D :=
  if d.err.isSome then (dflt, d) else
  if dupName d name then (dflt, d.fail (.dupField name)) else
  let (v, sub) := body { d with children := [], inArray := true }
  let node := Node.arr name d.pos (sub.pos - d.pos) sub.children
  (v, { sub with children := d.children ++ [node], inArray := d.inArray })

/-- Direct endianness assignment by a format body (`d.Endian = …`). -/
def setEndian (e : Endian) (d : D) : D :=
  if d.err.isSome then d else { d with endian := e }

/-- Go map indexing with the string zero value as default. -/
def lookupD (tbl : List (Nat × String)) (k : Nat) : String :=
  match tbl.find? (fun p => p.1 = k) with
  | some p => p.2
  | none => ""

/-- Mach-O magic constants (the Mach-O source). -/
def MH_MAGIC : Nat := 0xfeedface

/-- See `MH_MAGIC`. -/
def MH_CIGAM : Nat := 0xcefaedfe

/-- See `MH_MAGIC`. -/
def MH_MAGIC_64 : Nat := 0xfeedfacf

/-- See `MH_MAGIC`. -/
def MH_CIGAM_64 : Nat := 0xcffaedfe

/-- See `MH_MAGIC`. -/
def FAT_MAGIC : Nat := 0xcafebabe

/-- See `MH_MAGIC`. -/
def FAT_CIGAM : Nat := 0xbebafeca

/-- `magicSymMapper` (the Mach-O source): a `UToDescription` table. -/
def magicSymMapper : List (Nat × String) :=
  [(MH_MAGIC, "32-bit little endian"), (MH_CIGAM, "32-bit big endian"),
   (MH_MAGIC_64, "64-bit little endian"), (MH_CIGAM_64, "64-bit big endian")]

/-- `endianNames` (the Mach-O source). -/
def endianNames : List (Nat × String) :=
  [(MH_MAGIC, "little_endian"), (MH_CIGAM, "big_endian"),
   (MH_MAGIC_64, "little_endian"), (MH_CIGAM_64, "big_endian")]

/-- `cpuTypes` (the Mach-O source). -/
def cpuTypes : List (Nat × String) :=
  [(0xffffffff, "any"), (1, "vax"), (2, "romp"), (4, "ns32032"), (5, "ns32332"),
   (6, "mc680x0"), (7, "x86"), (8, "mips"), (9, "ns32532"), (10, "mc98000"),
   (11, "hppa"), (12, "arm"), (13, "mc88000"), (14, "sparc"), (15, "i860"),
   (16, "i860_little"), (17, "rs6000"), (18, "powerpc"), (0x1000007, "x86_64"),
   (0x100000c, "arm64"), (0x1000013, "powerpc64"), (255, "veo")]

/-- `intelSubTypeHelper` (the Mach-O source). -/
def intelSubTypeHelper (f m : Nat) : Nat := f + (m <<< 4)

/-- `cpuSubTypes` (the Mach-O source), as a function from cpu type to the
per-type symbol table (a missing key yields the empty table, like the nil
Go map). -/
def cpuSubTypesTbl (t : Nat) : List (Nat × String) :=
  if t = 0xffffffff then [(0xffffffff, "multiple")]
  else if t = 1 then
    [(0xffffffff, "multiple"), (0, "vax_all"), (1, "vax780"), (2, "vax785"),
     (3, "vax750"), (4, "vax730"), (5, "uvaxi"), (6, "uvaxii"), (7, "vax8200"),
     (8, "vax8500"), (9, "vax8600"), (10, "vax8650"), (11, "vax8800"), (12, "uvaxiii")]
  else if t = 6 then
    [(0xffffffff, "multiple"), (1, "mc680x0_all"), (2, "mc68040"), (3, "mc68030_only")]
  else if t = 7 then
    [(0xffffffff, "multiple"),
     (intelSubTypeHelper 3 0, "i386_all"), (intelSubTypeHelper 4 0, "i486"),
     (intelSubTypeHelper 4 8, "486sx"), (intelSubTypeHelper 5 0, "pent"),
     (intelSubTypeHelper 6 1, "pentpro"), (intelSubTypeHelper 6 3, "pentii_m3"),
     (intelSubTypeHelper 6 5, "pentii_m5"), (intelSubTypeHelper 7 6, "celeron"),
     (intelSubTypeHelper 7 7, "celeron_mobile"), (intelSubTypeHelper 8 0, "pentium_3"),
     (intelSubTypeHelper 8 1, "pentium_3_m"), (intelSubTypeHelper 8 2, "pentium_3_xeon"),
     (intelSubTypeHelper 9 0, "pentium_m"), (intelSubTypeHelper 10 0, "pentium_4"),
     (intelSubTypeHelper 10 1, "pentium_4_m"), (intelSubTypeHelper 11 0, "itanium"),
     (intelSubTypeHelper 11 1, "itanium_2"), (intelSubTypeHelper 12 0, "xeon"),
     (intelSubTypeHelper 12 1, "xeon_2")]
  else if t = 8 then
    [(0xffffffff, "multiple"), (0, "mips_all"), (1, "mips_r2300"), (2, "mips_r2600"),
     (3, "mips_r2800"), (4, "mips_r2000a"), (5, "mips_r2000"), (6, "mips_r3000a"),
     (7, "mips_r3000")]
  else if t = 10 then
    [(0xffffffff, "multiple"), (0, "mc98000_all"), (1, "mc98001")]
  else if t = 11 then
    [(0xffffffff, "multiple"), (0, "hppa_all"), (1, "hppa_7100"), (2, "hppa_7100_lc")]
  else if t = 12 then
    [(0xffffffff, "multiple"), (0, "arm_all"), (5, "arm_v4t"), (6, "arm_v6"),
     (7, "arm_v5tej"), (8, "arm_xscale"), (9, "arm_v7"), (10, "arm_v7f"),
     (11, "arm_v7s"), (12, "arm_v7k"), (13, "arm_v8"), (14, "arm_v6m"),
     (15, "arm_v7m"), (16, "arm_v7em")]
  else if t = 13 then
    [(0xffffffff, "multiple"), (0, "mc88000_all"), (1, "mc88100"), (2, "mc88110")]
  else if t = 14 then
    [(0xffffffff, "multiple"), (0, "sparc_all")]
  else if t = 15 then
    [(0xffffffff, "multiple"), (0, "i860_all"), (1, "i860_a860")]
  else if t = 18 then
    [(0xffffffff, "multiple"), (0, "powerpc_all"), (1, "powerpc_601"),
     (2, "powerpc_602"), (3, "powerpc_603"), (4, "powerpc_603e"), (5, "powerpc_603ev"),
     (6, "powerpc_604"), (7, "powerpc_604e"), (8, "powerpc_620"), (9, "powerpc_750"),
     (10, "powerpc_7400"), (11, "powerpc_7450"), (100, "powerpc_970")]
  else if t = 0x1000012 then
    [(0xffffffff, "multiple"), (0, "arm64_all"), (1, "arm64_v8"), (2, "arm64_e")]
  else []

/-- `fileTypes` (the Mach-O source). -/
def fileTypes : List (Nat × String) :=
  [(0x1, "object"), (0x2, "execute"), (0x3, "fvmlib"), (0x4, "core"),
   (0x5, "preload"), (0x6, "dylib"), (0x7, "dylinker"), (0x8, "bundle"),
   (0x9, "dylib_stub"), (0xa, "dsym"), (0xb, "kext_bundle")]

/-- Load-command constants (the Mach-O source). -/
def LC_REQ_DYLD : Nat := 0x80000000

/-- See `LC_REQ_DYLD`. -/
def LC_SEGMENT : Nat := 0x1

/-- See `LC_REQ_DYLD`. -/
def LC_SYMTAB : Nat := 0x2

/-- See `LC_REQ_DYLD`. -/
def LC_SYMSEG : Nat := 0x3

/-- See `LC_REQ_DYLD`. -/
def LC_THREAD : Nat := 0x4

/-- See `LC_REQ_DYLD`. -/
def LC_UNIXTHREAD : Nat := 0x5

/-- See `LC_REQ_DYLD`. -/
def LC_LOADFVMLIB : Nat := 0x6

/-- See `LC_REQ_DYLD`. -/
def LC_IDFVMLIB : Nat := 0x7

/-- See `LC_REQ_DYLD`. -/
def LC_IDENT : Nat := 0x8

/-- See `LC_REQ_DYLD`. -/
def LC_FVMFILE : Nat := 0x9

/-- See `LC_REQ_DYLD`. -/
def LC_PREPAGE : Nat := 0xa

/-- See `LC_REQ_DYLD`. -/
def LC_DYSYMTAB : Nat := 0xb

/-- See `LC_REQ_DYLD`. -/
def LC_LOAD_DYLIB : Nat := 0xc

/-- See `LC_REQ_DYLD`. -/
def LC_ID_DYLIB : Nat := 0xd

/-- See `LC_REQ_DYLD`. -/
def LC_LOAD_DYLINKER : Nat := 0xe

/-- See `LC_REQ_DYLD`. -/
def LC_ID_DYLINKER : Nat := 0xf

/-- See `LC_REQ_DYLD`. -/
def LC_PREBOUND_DYLIB : Nat := 0x10

/-- See `LC_REQ_DYLD`. -/
def LC_ROUTINES : Nat := 0x11

/-- See `LC_REQ_DYLD`. -/
def LC_SUB_FRAMEWORK : Nat := 0x12

/-- See `LC_REQ_DYLD`. -/
def LC_SUB_UMBRELLA : Nat := 0x13

/-- See `LC_REQ_DYLD`. -/
def LC_SUB_CLIENT : Nat := 0x14

/-- See `LC_REQ_DYLD`. -/
def LC_SUB_LIBRARY : Nat := 0x15

/-- See `LC_REQ_DYLD`. -/
def LC_TWOLEVEL_HINTS : Nat := 0x16

/-- See `LC_REQ_DYLD`. -/
def LC_PREBIND_CKSUM : Nat := 0x17

/-- See `LC_REQ_DYLD`. -/
def LC_LOAD_WEAK_DYLIB : Nat := 0x80000018

/-- See `LC_REQ_DYLD`. -/
def LC_SEGMENT_64 : Nat := 0x19

/-- See `LC_REQ_DYLD`. -/
def LC_ROUTINES_64 : Nat := 0x1a

/-- See `LC_REQ_DYLD`. -/
def LC_UUID : Nat := 0x1b

/-- See `LC_REQ_DYLD`. -/
def LC_RPATH : Nat := 0x8000001c

/-- See `LC_REQ_DYLD`. -/
def LC_CODE_SIGNATURE : Nat := 0x1d

/-- See `LC_REQ_DYLD`. -/
def LC_SEGMENT_SPLIT_INFO : Nat := 0x1e

/-- See `LC_REQ_DYLD`. -/
def LC_REEXPORT_DYLIB : Nat := 0x8000001f

/-- See `LC_REQ_DYLD`. -/
def LC_LAZY_LOAD_DYLIB : Nat := 0x20

/-- See `LC_REQ_DYLD`. -/
def LC_ENCRYPTION_INFO : Nat := 0x21

/-- See `LC_REQ_DYLD`. -/
def LC_DYLD_INFO : Nat := 0x22

/-- See `LC_REQ_DYLD`. -/
def LC_DYLD_INFO_ONLY : Nat := 0x80000022

/-- See `LC_REQ_DYLD`. -/
def LC_LOAD_UPWARD_DYLIB : Nat := 0x80000023

/-- See `LC_REQ_DYLD`. -/
def LC_VERSION_MIN_MACOSX : Nat := 0x24

/-- See `LC_REQ_DYLD`. -/
def LC_VERSION_MIN_IPHONEOS : Nat := 0x25

/-- See `LC_REQ_DYLD`. -/
def LC_FUNCTION_STARTS : Nat := 0x26

/-- See `LC_REQ_DYLD`. -/
def LC_DYLD_ENVIRONMENT : Nat := 0x27

/-- See `LC_REQ_DYLD`. -/
def LC_MAIN : Nat := 0x80000028

/-- See `LC_REQ_DYLD`. -/
def LC_DATA_IN_CODE : Nat := 0x29

/-- See `LC_REQ_DYLD`. -/
def LC_SOURCE_VERSION : Nat := 0x2a

/-- See `LC_REQ_DYLD`. -/
def LC_DYLIB_CODE_SIGN_DRS : Nat := 0x2b

/-- See `LC_REQ_DYLD`. -/
def LC_ENCRYPTION_INFO_64 : Nat := 0x2c

/-- See `LC_REQ_DYLD`. -/
def LC_LINKER_OPTION : Nat := 0x2d

/-- See `LC_REQ_DYLD`. -/
def LC_LINKER_OPTIMIZATION_HINT : Nat := 0x2e

/-- See `LC_REQ_DYLD`. -/
def LC_VERSION_MIN_TVOS : Nat := 0x2f

/-- See `LC_REQ_DYLD`. -/
def LC_VERSION_MIN_WATCHOS : Nat := 0x30

/-- See `LC_REQ_DYLD`. -/
def LC_NOTE : Nat := 0x31

/-- See `LC_REQ_DYLD`. -/
def LC_BUILD_VERSION : Nat := 0x32

/-- `loadCommands` (the Mach-O source): the load-command name table. -/
def loadCommands : List (Nat × String) :=
  [(LC_REQ_DYLD, "req_dyld"), (LC_SEGMENT, "segment"), (LC_SYMTAB, "symtab"),
   (LC_SYMSEG, "symseg"), (LC_THREAD, "thread"), (LC_UNIXTHREAD, "unixthread"),
   (LC_LOADFVMLIB, "loadfvmlib"), (LC_IDFVMLIB, "idfvmlib"), (LC_IDENT, "ident"),
   (LC_FVMFILE, "fvmfile"), (LC_PREPAGE, "prepage"), (LC_DYSYMTAB, "dysymtab"),
   (LC_LOAD_DYLIB, "load_dylib"), (LC_ID_DYLIB, "id_dylib"),
   (LC_LOAD_DYLINKER, "load_dylinker"), (LC_ID_DYLINKER, "id_dylinker"),
   (LC_PREBOUND_DYLIB, "prebound_dylib"), (LC_ROUTINES, "routines"),
   (LC_SUB_FRAMEWORK, "sub_framework"), (LC_SUB_UMBRELLA, "sub_umbrella"),
   (LC_SUB_CLIENT, "sub_client"), (LC_SUB_LIBRARY, "sub_library"),
   (LC_TWOLEVEL_HINTS, "twolevel_hints"), (LC_PREBIND_CKSUM, "prebind_cksum"),
   (LC_LOAD_WEAK_DYLIB, "load_weak_dylib"), (LC_SEGMENT_64, "segment_64"),
   (LC_ROUTINES_64, "routines_64"), (LC_UUID, "uuid"), (LC_RPATH, "rpath"),
   (LC_CODE_SIGNATURE, "code_signature"), (LC_SEGMENT_SPLIT_INFO, "segment_split_info"),
   (LC_REEXPORT_DYLIB, "reexport_dylib"), (LC_LAZY_LOAD_DYLIB, "lazy_load_dylib"),
   (LC_ENCRYPTION_INFO, "encryption_info"), (LC_DYLD_INFO, "dyld_info"),
   (LC_DYLD_INFO_ONLY, "dyld_info_only"), (LC_LOAD_UPWARD_DYLIB, "load_upward_dylib"),
   (LC_VERSION_MIN_MACOSX, "version_min_macosx"),
   (LC_VERSION_MIN_IPHONEOS, "version_min_iphoneos"),
   (LC_FUNCTION_STARTS, "function_starts"), (LC_DYLD_ENVIRONMENT, "dyld_environment"),
   (LC_MAIN, "main"), (LC_DATA_IN_CODE, "data_in_code"),
   (LC_SOURCE_VERSION, "source_version"),
   (LC_DYLIB_CODE_SIGN_DRS, "dylib_code_sign_drs"),
   (LC_ENCRYPTION_INFO_64, "encryption_info_64"), (LC_LINKER_OPTION, "linker_option"),
   (LC_LINKER_OPTIMIZATION_HINT, "linker_optimization_hint"),
   (LC_VERSION_MIN_TVOS, "version_min_tvos"),
   (LC_VERSION_MIN_WATCHOS, "version_min_watchos"), (LC_NOTE, "note"),
   (LC_BUILD_VERSION, "build_version")]

/-- `sectionTypes` (the Mach-O source). -/
def sectionTypes : List (Nat × String) :=
  [(0x0, "regular"), (0x1, "zerofill"), (0x2, "cstring_literals"),
   (0x3, "4byte_literals"), (0x4, "8byte_literals"), (0x5, "literal_pointers"),
   (0x6, "non_lazy_symbol_pointers"), (0x7, "lazy_symbol_pointers"),
   (0x8, "symbol_stubs"), (0x9, "mod_init_func_pointers"),
   (0xa, "mod_term_func_pointers"), (0xb, "coalesced"), (0xc, "gb_zerofill"),
   (0xd, "interposing"), (0xe, "16byte_literals"), (0xf, "dtrace_dof"),
   (0x10, "lazy_dylib_symbol_pointers"), (0x11, "thread_local_regular"),
   (0x12, "thread_local_zerofill"), (0x13, "thread_local_variables"),
   (0x14, "thread_local_variable_pointers"),
   (0x15, "thread_local_init_function_pointers")]

/-- Modelled from the spec: the Go standard library's
`time.UnixMilli(ts).UTC().String()` rendering, abstracted as a decimal
rendering of the millisecond count (no claim depends on the text). -/
def timeStringOfMillis (n : Int) : String := toString n

/-- `timestampMapper` (the Mach-O source). -/
def timestampMapper : Mapper := fun s =>
  match s.actual with
  | .u ts => .ok { s with sym := some (timeStringOfMillis (i64OfU64 ts)) }
  | _ => .ok s

/-- `parseMachHeaderFlags` (the Mach-O source). -/
def parseMachHeaderFlags (d : D) : D :=
  let d := fieldRawLen "reserved" 6 [] d
  let d := (fieldBool "app_extension_safe" [] d).2
  let d := (fieldBool "no_heap_execution" [] d).2
  let d := (fieldBool "has_tlv_descriptors" [] d).2
  let d := (fieldBool "dead_strippable_dylib" [] d).2
  let d := (fieldBool "pie" [] d).2
  let d := (fieldBool "no_reexported_dylibs" [] d).2
  let d := (fieldBool "setuid_safe" [] d).2
  let d := (fieldBool "root_safe" [] d).2
  let d := (fieldBool "allow_stack_execution" [] d).2
  let d := (fieldBool "binds_to_weak" [] d).2
  let d := (fieldBool "weak_defines" [] d).2
  let d := (fieldBool "canonical" [] d).2
  let d := (fieldBool "subsections_via_symbols" [] d).2
  let d := (fieldBool "allmodsbound" [] d).2
  let d := (fieldBool "prebindable" [] d).2
  let d := (fieldBool "nofixprebinding" [] d).2
  let d := (fieldBool "nomultidefs" [] d).2
  let d := (fieldBool "force_flat" [] d).2
  let d := (fieldBool "twolevel" [] d).2
  let d := (fieldBool "lazy_init" [] d).2
  let d := (fieldBool "split_segs" [] d).2
  let d := (fieldBool "prebound" [] d).2
  let d := (fieldBool "bindatload" [] d).2
  let d := (fieldBool "dyldlink" [] d).2
  let d := (fieldBool "incrlink" [] d).2
  (fieldBool "noundefs" [] d).2

/-- `parseSegmentFlags` (the Mach-O source). -/
def parseSegmentFlags (d : D) : D :=
  let d := fieldRawLen "reserved" 28 [] d
  let d := (fieldBool "protected_version_1" [] d).2
  let d := (fieldBool "noreloc" [] d).2
  let d := (fieldBool "fvmlib" [] d).2
  (fieldBool "highvm" [] d).2

/-- `parseSectionFlags` (the Mach-O source). -/
def parseSectionFlags (d : D) : D :=
  let d := (fieldBool "attr_pure_instructions" [] d).2
  let d := (fieldBool "attr_no_toc" [] d).2
  let d := (fieldBool "attr_strip_static_syms" [] d).2
  let d := (fieldBool "attr_no_dead_strip" [] d).2
  let d := (fieldBool "attr_live_support" [] d).2
  let d := (fieldBool "attr_self_modifying_code" [] d).2
  let d := (fieldBool "attr_debug" [] d).2
  let d := fieldRawLen "reserved" 14 [] d
  let d := (fieldBool "attr_some_instructions" [] d).2
  let d := (fieldBool "attr_ext_reloc" [] d).2
  (fieldBool "attr_loc_reloc" [] d).2

/-- `threadStateI386Decode` (the Mach-O source). -/
def threadStateI386Decode (d : D) : D :=
  ["eax", "ebx", "ecx", "edx", "edi", "esi", "ebp", "esp", "ss", "eflags",
   "eip", "cs", "ds", "es", "fs", "gs"].foldl (fun d nm => (fieldU nm 32 [] d).2) d

/-- `threadStateX8664Decode` (the Mach-O source). -/
def threadStateX8664Decode (d : D) : D :=
  ["rax", "rbx", "rcx", "rdx", "rdi", "rsi", "rbp", "rsp", "r8", "r9", "r10",
   "r11", "r12", "r13", "r14", "r15", "rip", "rflags", "cs", "fs",
   "gs"].foldl (fun d nm => (fieldU nm 64 [] d).2) d

/-- `threadStateARM32Decode` (the Mach-O source). -/
def threadStateARM32Decode (d : D) : D :=
  let d := fieldStructArrayCount "r" "r" 13 (fun d => (fieldU "value" 32 [] d).2) d
  let d := (fieldU "sp" 32 [] d).2
  let d := (fieldU "lr" 32 [] d).2
  let d := (fieldU "pc" 32 [] d).2
  (fieldU "cpsr" 32 [] d).2

/-- `threadStateARM64Decode` (the Mach-O source). -/
def threadStateARM64Decode (d : D) : D :=
  let d := fieldStructArrayCount "r" "r" 29 (fun d => (fieldU "value" 64 [] d).2) d
  let d := (fieldU "fp" 64 [] d).2
  let d := (fieldU "lr" 64 [] d).2
  let d := (fieldU "sp" 64 [] d).2
  let d := (fieldU "pc" 64 [] d).2
  let d := (fieldU "cpsr" 32 [] d).2
  (fieldU "pad" 32 [] d).2

/-- `threadStatePPC32Decode` (the Mach-O source). -/
def threadStatePPC32Decode (d : D) : D :=
  let d := fieldStructArrayCount "srr" "srr" 2 (fun d => (fieldU "value" 32 [] d).2) d
  let d := fieldStructArrayCount "r" "r" 32 (fun d => (fieldU "value" 32 [] d).2) d
  let d := (fieldU "ct" 32 [] d).2
  let d := (fieldU "xer" 32 [] d).2
  let d := (fieldU "lr" 32 [] d).2
  let d := (fieldU "ctr" 32 [] d).2
  let d := (fieldU "mq" 32 [] d).2
  (fieldU "vrsave" 32 [] d).2

/-- `threadStatePPC64Decode` (the Mach-O source). -/
def threadStatePPC64Decode (d : D) : D :=
  let d := fieldStructArrayCount "srr" "srr" 2 (fun d => (fieldU "value" 64 [] d).2) d
  let d := fieldStructArrayCount "r" "r" 32 (fun d => (fieldU "value" 64 [] d).2) d
  let d := (fieldU "ct" 32 [] d).2
  let d := (fieldU "xer" 64 [] d).2
  let d := (fieldU "lr" 64 [] d).2
  let d := (fieldU "ctr" 64 [] d).2
  (fieldU "vrsave" 32 [] d).2

/-- The `LC_SEGMENT`/`LC_SEGMENT_64` case body of `ofileDecode` (the Mach-O
source). -/
def machoSegmentCase (archBits : Nat) (d : D) : D :=
  let (nsects, d) := fieldStructV "segment_command" 0 (fun d =>
    let d := fieldValueS "arch_bits" (archBits : Int) d
    let d := fieldUTF8NullFixedLen "segname" 16 d
    let d := if archBits = 32 then
               let d := (fieldU "vmaddr" 32 [actualHex] d).2
               let d := (fieldU "vmsize" 32 [] d).2
               let d := (fieldU "fileoff" 32 [] d).2
               (fieldU "tfilesize" 32 [] d).2
             else
               let d := (fieldU "vmaddr" 64 [actualHex] d).2
               let d := (fieldU "vmsize" 64 [] d).2
               let d := (fieldU "fileoff" 64 [] d).2
               (fieldU "tfilesize" 64 [] d).2
    let (_, d) := fieldS "initprot" 32 [] d
    let (_, d) := fieldS "maxprot" 32 [] d
    let (nsects, d) := fieldU "nsects" 32 [] d
    (nsects, fieldStruct "flags" parseSegmentFlags d)) d
  fieldArray "sections" (fun d =>
    (List.range nsects).foldl (fun d _ =>
      fieldStruct "section" (fun d =>
        let d := fieldUTF8NullFixedLen "sectname" 16 d
        let d := fieldUTF8NullFixedLen "segname" 16 d
        let (size, d) := if archBits = 32 then
                           let d := (fieldU "address" 32 [actualHex] d).2
                           fieldU "size" 32 [] d
                         else
                           let d := (fieldU "address" 64 [actualHex] d).2
                           fieldU "size" 64 [] d
        let (offset, d) := fieldU "offset" 32 [] d
        let (_, d) := fieldU "align" 32 [] d
        let (_, d) := fieldU "reloff" 32 [] d
        let (_, d) := fieldU "nreloc" 32 [] d
        let d := fieldStruct "flags" parseSectionFlags d
        let (_, d) := fieldU "type" 8 [uToSymStr sectionTypes] d
        let (_, d) := fieldU "reserved1" 32 [] d
        let (_, d) := fieldU "reserved2" 32 [] d
        let d := if archBits = 64 then (fieldU "reserved3" 32 [] d).2 else d
        rangeFn (goI64mul (i64OfU64 offset) 8) (goI64mul (i64OfU64 size) 8)
          (fun d => fieldRawLen "data" ((d.limit : Int) - (d.pos : Int)) [] d) d) d) d) d

/-- The body of one `load_command` struct of `ofileDecode` (the Mach-O
source): read `cmd` and `cmdsize`, then the per-command switch.  A `cmd`
value outside the `loadCommands` table only advances the cursor by
`(cmdsize - 8) * 8` bits ("Seek Rel so the parts are marked unknown"). -/
def machoLoadCommandBody (archBits cpuType : Nat) (d : D) : D :=
  let (cmd, d) := fieldU "cmd" 32 [uToSymStr loadCommands, actualHex] d
  let (cmdsize, d) := fieldU "cmdsize" 32 [] d
  if cmd = LC_UUID then
    fieldStruct "uuid_command" (fun d => fieldRawLen "uuid" (16 * 8) [] d) d
  else if cmd = LC_SEGMENT ∨ cmd = LC_SEGMENT_64 then
    machoSegmentCase archBits d
  else if cmd = LC_TWOLEVEL_HINTS then
    let (_, d) := fieldU "offset" 32 [] d
    (fieldU "nhints" 32 [] d).2
  else if cmd = LC_LOAD_DYLIB ∨ cmd = LC_ID_DYLIB ∨ cmd = LC_LOAD_UPWARD_DYLIB ∨
          cmd = LC_LOAD_WEAK_DYLIB ∨ cmd = LC_LAZY_LOAD_DYLIB ∨ cmd = LC_REEXPORT_DYLIB then
    fieldStruct "dylib_command" (fun d =>
      let (offset, d) := fieldU "offset" 32 [] d
      let (_, d) := fieldU "timestamp" 32 [timestampMapper] d
      let (_, d) := fieldU "current_version" 32 [] d
      let (_, d) := fieldU "compatibility_version" 32 [] d
      fieldUTF8NullFixedLen "name" ((cmdsize : Int) - (offset : Int)) d) d
  else if cmd = LC_LOAD_DYLINKER ∨ cmd = LC_ID_DYLINKER ∨ cmd = LC_DYLD_ENVIRONMENT then
    let (offset, d) := fieldU "offset" 32 [] d
    fieldUTF8NullFixedLen "name" ((cmdsize : Int) - (offset : Int)) d
  else if cmd = LC_RPATH then
    let (offset, d) := fieldU "offset" 32 [] d
    fieldUTF8NullFixedLen "name" ((cmdsize : Int) - (offset : Int)) d
  else if cmd = LC_PREBOUND_DYLIB then
    let (_, d) := rawU 32 d
    let (nmodules, d) := fieldU "nmodules" 32 [] d
    let (_, d) := rawU 32 d
    let d := fieldUTF8Null "name" d
    fieldRawLen "linked_modules" (i64OfU64 (nmodules / 8 + nmodules % 8)) [] d
  else if cmd = LC_THREAD ∨ cmd = LC_UNIXTHREAD then
    let (_, d) := fieldU "flavor" 32 [] d
    let (count, d) := fieldU "count" 32 [] d
    fieldStruct "state" (fun d =>
      if cpuType = 0x7 then threadStateI386Decode d
      else if cpuType = 0xC then threadStateARM32Decode d
      else if cpuType = 0x13 then threadStatePPC32Decode d
      else if cpuType = 0x1000007 then threadStateX8664Decode d
      else if cpuType = 0x100000C then threadStateARM64Decode d
      else if cpuType = 0x1000013 then threadStatePPC64Decode d
      else fieldRawLen "state" (i64OfU64 (count * 32 % 2 ^ 64)) [] d) d
  else if cmd = LC_ROUTINES ∨ cmd = LC_ROUTINES_64 then
    if archBits = 32 then
      ["init_address", "init_module", "reserved1", "reserved2", "reserved3",
       "reserved4", "reserved5", "reserved6"].foldl (fun d nm =>
        (fieldU nm 32 (if nm = "init_address" then [actualHex] else []) d).2) d
    else
      ["init_address", "init_module", "reserved1", "reserved2", "reserved3",
       "reserved4", "reserved5", "reserved6"].foldl (fun d nm =>
        (fieldU nm 64 (if nm = "init_address" then [actualHex] else []) d).2) d
  else if cmd = LC_SUB_UMBRELLA ∨ cmd = LC_SUB_LIBRARY ∨ cmd = LC_SUB_CLIENT ∨
          cmd = LC_SUB_FRAMEWORK then
    let (offset, d) := fieldU "offset" 32 [] d
    fieldUTF8NullFixedLen "name" ((cmdsize : Int) - (offset : Int)) d
  else if cmd = LC_SYMTAB then
    ["symoff", "nsyms", "stroff", "strsize"].foldl (fun d nm => (fieldU nm 32 [] d).2) d
  else if cmd = LC_DYSYMTAB then
    ["ilocalsym", "nlocalsym", "iextdefsym", "nextdefsym", "iundefsym",
     "nundefsym", "tocoff", "ntoc", "modtaboff", "nmodtab", "extrefsymoff",
     "nextrefsyms", "indirectsymoff", "nindirectsyms", "extreloff", "nextrel",
     "locreloff", "nlocrel"].foldl (fun d nm => (fieldU nm 32 [] d).2) d
  else if cmd = LC_BUILD_VERSION then
    let (_, d) := fieldU "platform" 32 [] d
    let (_, d) := fieldU "minos" 32 [] d
    let (_, d) := fieldU "sdk" 32 [] d
    let (ntools, d) := fieldU "ntools" 32 [] d
    fieldStructArrayCount "tools" "tool" ntools (fun d =>
      let (_, d) := fieldU "tool" 32 [] d
      (fieldU "version" 32 [] d).2) d
  else if cmd = LC_CODE_SIGNATURE ∨ cmd = LC_SEGMENT_SPLIT_INFO ∨
          cmd = LC_FUNCTION_STARTS ∨ cmd = LC_DATA_IN_CODE ∨
          cmd = LC_DYLIB_CODE_SIGN_DRS ∨ cmd = LC_LINKER_OPTIMIZATION_HINT then
    fieldStruct "linkedit_data" (fun d =>
      let (_, d) := fieldU "off" 32 [] d
      (fieldU "size" 32 [] d).2) d
  else if cmd = LC_VERSION_MIN_IPHONEOS ∨ cmd = LC_VERSION_MIN_MACOSX ∨
          cmd = LC_VERSION_MIN_TVOS ∨ cmd = LC_VERSION_MIN_WATCHOS then
    let (_, d) := fieldU "version" 32 [] d
    (fieldU "sdk" 32 [] d).2
  else if cmd = LC_DYLD_INFO ∨ cmd = LC_DYLD_INFO_ONLY then
    fieldStruct "dyld_info" (fun d =>
      ["rebase_off", "rebase_size", "bind_off", "bind_size", "weak_bind_off",
       "weak_bind_size", "lazy_bind_off", "lazy_bind_size", "export_off",
       "export_size"].foldl (fun d nm => (fieldU nm 32 [] d).2) d) d
  else if cmd = LC_MAIN then
    fieldStruct "entrypoint" (fun d =>
      let (_, d) := fieldU "entryoff" 64 [] d
      (fieldU "stacksize" 64 [] d).2) d
  else if cmd = LC_SOURCE_VERSION then
    fieldStruct "source_version_tag" (fun d => (fieldU "tag" 64 [] d).2) d
  else if cmd = LC_LINKER_OPTION then
    fieldStruct "linker_option" (fun d =>
      let (count, d) := fieldU "count" 32 [] d
      fieldUTF8NullFixedLen "option" (count : Int) d) d
  else if cmd = LC_ENCRYPTION_INFO ∨ cmd = LC_ENCRYPTION_INFO_64 then
    fieldStruct "encryption_info" (fun d =>
      let (offset, d) := fieldU "offset" 32 [] d
      let (size, d) := fieldU "size" 32 [] d
      let (_, d) := fieldU "id" 32 [] d
      rangeFn (goI64mul (i64OfU64 offset) 8) (goI64mul (i64OfU64 size) 8)
        (fun d => fieldRawLen "data" ((d.limit : Int) - (d.pos : Int)) [] d) d) d
  else if cmd = LC_IDFVMLIB ∨ cmd = LC_LOADFVMLIB then
    fieldStruct "fvmlib" (fun d =>
      let (offset, d) := fieldU "offset" 32 [] d
      let (_, d) := fieldU "minor_version" 32 [] d
      let (_, d) := fieldU "header_addr" 32 [actualHex] d
      fieldUTF8NullFixedLen "name" ((cmdsize : Int) - (offset : Int)) d) d
  else
    if (loadCommands.find? (fun p => p.1 = cmd)).isNone then
      seekRel (i64OfU64 (goU64sub cmdsize 8 * 8 % 2 ^ 64)) d
    else d

/-- `fatParse` (the Mach-O source), with the recursive per-file `ofileDecode`
call passed as `ofile`. -/
def fatParseWith (ofile : D → D) (d : D) : D :=
  let d := seekAbs 0 d
  let ((narchs, ofileOffsets), d) := fieldStructV "fat_header" (0, []) (fun d =>
    let (_, d) := fieldU "magic" 32 [actualHex] d
    let (narchs, d) := fieldU "narchs" 32 [] d
    let (ofileOffsets, d) := fieldArrayV "archs" ([] : List Nat) (fun d =>
      (List.range narchs).foldl (fun (p : List Nat × D) _ =>
        let (acc, d) := p
        let (off, d) := fieldStructV "fat_arch" 0 (fun d =>
          let (cpuType, d) := fieldU "cputype" 32 [uToSymStr cpuTypes, actualHex] d
          let (_, d) := fieldU "cpusubtype" 32 [uToSymStr (cpuSubTypesTbl cpuType), actualHex] d
          let (off, d) := fieldU "offset" 32 [] d
          let (_, d) := fieldU "size" 32 [] d
          let (_, d) := fieldU "align" 32 [] d
          (off, d)) d
        (acc ++ [off], d)) ([], d)) d
    ((narchs, ofileOffsets), d)) d
  fieldArray "files" (fun d =>
    ofileOffsets.foldl (fun d off =>
      fieldStruct "file" (fun d => ofile (seekAbs (goI64mul (i64OfU64 off) 8) d)) d) d) d

/-- `ofileDecode` (the Mach-O source).  The mutual recursion between
`ofileDecode` and `fatParse` is bounded by explicit fuel; exhausting it is
the fatal recursion-depth error of spec section 5. -/
def ofileDecodeF : Nat → D → D
  | 0, d => fatalf "recursion depth" d
  | fuel + 1, d =>
    let (magicBuffer, d) := rawU32LE d
    if magicBuffer = MH_MAGIC ∨ magicBuffer = MH_MAGIC_64 ∨
       magicBuffer = MH_CIGAM ∨ magicBuffer = MH_CIGAM_64 then
      let archBits : Nat := if magicBuffer = MH_MAGIC ∨ magicBuffer = MH_CIGAM then 32 else 64
      let d := setEndian (if magicBuffer = MH_MAGIC ∨ magicBuffer = MH_MAGIC_64
                          then .little else .big) d
      let d := seekRel (-4 * 8) d
      let ((cpuType, ncmds), d) := fieldStructV "header" (0, 0) (fun d =>
        let d := fieldValueS "arch_bits" (archBits : Int) d
        let (magic, d) := fieldU "magic" 32 [uToDescr magicSymMapper, actualHex] d
        let d := fieldValueU "bits" archBits [] d
        let d := fieldValueStr "endian" (lookupD endianNames magic) d
        let (cpuType, d) := fieldU "cputype" 32 [uToSymStr cpuTypes, actualHex] d
        let (_, d) := fieldU "cpusubtype" 32 [uToSymStr (cpuSubTypesTbl cpuType), actualHex] d
        let (_, d) := fieldU "filetype" 32 [uToSymStr fileTypes] d
        let (ncmds, d) := fieldU "ncdms" 32 [] d
        let (_, d) := fieldU "sizeofncdms" 32 [] d
        let d := fieldStruct "flags" parseMachHeaderFlags d
        let d := if archBits = 64 then fieldRawLen "reserved" (4 * 8) [bitBufIsZero] d else d
        ((cpuType, ncmds), d)) d
      fieldArray "load_commands" (fun d =>
        (List.range ncmds).foldl (fun d _ =>
          fieldStruct "load_command" (machoLoadCommandBody archBits cpuType) d) d) d
    else if magicBuffer = FAT_MAGIC then
      fatParseWith (ofileDecodeF fuel) (setEndian .little d)
    else if magicBuffer = FAT_CIGAM then
      fatParseWith (ofileDecodeF fuel) (setEndian .big d)
    else
      fatalf "Invalid magic field" d

/-- `machoDecode` (the Mach-O source): it ignores its in-argument and runs
`ofileDecode`. -/
def machoDecode (inArg : FormatIn) (d : D) : D :=
  ofileDecodeF (d.bits.length + 1) d

/-- The node kinds of the external `golang.org/x/net/html` parser that
`decodeHTML` distinguishes; every other kind is `otherNode`. -/
inductive HtmlNodeType
  | elementNode
  | textNode
  | commentNode
  | otherNode
deriving Repr, DecidableEq

/-- A parsed HTML node: kind, data (tag name or text), attributes, and
children (the Go sibling chain flattened into a list). -/
inductive HtmlNode
  | mk (typ : HtmlNodeType) (data : String) (attr : List (String × String))
       (kids : List HtmlNode)

/-- Kind of an HTML node. -/
def HtmlNode.typ : HtmlNode → HtmlNodeType
  | .mk t _ _ _ => t

/-- Data of an HTML node. -/
def HtmlNode.data : HtmlNode → String
  | .mk _ s _ _ => s

/-- Attribute list of an HTML node. -/
def HtmlNode.attr : HtmlNode → List (String × String)
  | .mk _ _ a _ => a

/-- Children of an HTML node. -/
def HtmlNode.kids : HtmlNode → List HtmlNode
  | .mk _ _ _ k => k

/-- The dynamically typed values that `fromHTMLObject`/`fromHTMLArray`
build (Go `any`); objects are insertion-ordered association lists (Go maps
are unordered — only membership, length and lookups matter). -/
inductive AnyV
  | nullA
  | strA (s : String)
  | numA (n : Int)
  | arrA (xs : List AnyV)
  | objA (fields : List (String × AnyV))

/-- Lookup in an association list. -/
def assocGet (l : List (String × AnyV)) (k : String) : Option AnyV :=
  (l.find? (fun p => p.1 = k)).map (fun p => p.2)

/-- Set a key in an association list (replace in place or append). -/
def assocSet (l : List (String × AnyV)) (k : String) (v : AnyV) : List (String × AnyV) :=
  if l.any (fun p => p.1 = k) then
    l.map (fun p => if p.1 = k then (k, v) else p)
  else l ++ [(k, v)]

/-- Modelled from the spec: the `whitespaceRE` regular expression of the
xml package (its definition file is not among the provided sources): true
iff the text is whitespace-only. -/
def isWhitespaceOnly (s : String) : Bool :=
  s.all (fun c => c = ' ' || c = '\t' || c = '\n' || c = '\r')

/-- `fromHTMLObject` (format/xml/html.go): the inner recursive closure
`f(n, seq)`. -/
def fromHTMLObjectF (hi : HTMLInArg) (n : HtmlNode) (seq : Int) : AnyV :=
  let attrs0 : List (String × AnyV) :=
    match n.typ with
    | .elementNode => n.attr.foldl (fun acc p => assocSet acc ("-" ++ p.1) (.strA p.2)) []
    | _ => []
  let nNodes := (n.kids.filter (fun c => c.typ = .elementNode)).length
  let nSeq0 : Int := if nNodes > 1 then 0 else -1
  let st := n.kids.attach.foldl
    (fun (st : List (String × AnyV) × Int × Option String × Option String) cc =>
      let (attrs, nSeq, textSb, commentSb) := st
      let c := cc.1
      let (attrs, nSeq, textSb, commentSb) :=
        match hc : c.typ with
        | .elementNode =>
          let sub := fromHTMLObjectF hi c nSeq
          let attrs :=
            match assocGet attrs c.data with
            | some (.arrA ea) => assocSet attrs c.data (.arrA (ea ++ [sub]))
            | some e => assocSet attrs c.data (.arrA [e, sub])
            | none => assocSet attrs c.data sub
          (attrs, if nNodes > 1 then nSeq + 1 else nSeq, textSb, commentSb)
        | .textNode =>
          if isWhitespaceOnly c.data then (attrs, nSeq, textSb, commentSb)
          else (attrs, nSeq, some ((textSb.getD "") ++ c.data), commentSb)
        | .commentNode =>
          if isWhitespaceOnly c.data then (attrs, nSeq, textSb, commentSb)
          else (attrs, nSeq, textSb, some ((commentSb.getD "") ++ c.data))
        | .otherNode => (attrs, nSeq, textSb, commentSb)
      let attrs := match textSb with
                   | some t => assocSet attrs "#text" (.strA t.trim)
                   | none => attrs
      let attrs := match commentSb with
                   | some t => assocSet attrs "#comment" (.strA t.trim)
                   | none => attrs
      (attrs, nSeq, textSb, commentSb))
    (attrs0, nSeq0, none, none)
  let attrs := st.1
  let attrs := if hi.seq ∧ seq ≠ -1 then assocSet attrs "#seq" (.numA seq) else attrs
  if attrs.length = 0 then .strA ""
  else if attrs.length = 1 ∧ (assocGet attrs "#text").isSome then
    (assocGet attrs "#text").getD .nullA
  else .objA attrs
termination_by sizeOf n
decreasing_by
  cases n with
  | mk t da a k =>
    have hlt := List.sizeOf_lt_of_mem cc.2
    simp only [HtmlNode.mk.sizeOf_spec]
    simp only [HtmlNode.kids] at hlt
    omega

/-- `fromHTMLObject` (format/xml/html.go): entry point `f(n, -1)`. -/
def fromHTMLObject (n : HtmlNode) (hi : HTMLInArg) : AnyV :=
  fromHTMLObjectF hi n (-1)

/-- `fromHTMLArray` (format/xml/html.go): the inner recursive closure. -/
def fromHTMLArrayF (n : HtmlNode) : AnyV :=
  let attrs0 : List (String × AnyV) :=
    match n.typ with
    | .elementNode => n.attr.foldl (fun acc p => assocSet acc p.1 (.strA p.2)) []
    | _ => []
  let st := n.kids.attach.foldl
    (fun (st : List AnyV × Option String × Option String) cc =>
      let (nodes, textSb, commentSb) := st
      let c := cc.1
      match c.typ with
      | .elementNode => (nodes ++ [fromHTMLArrayF c], textSb, commentSb)
      | .textNode =>
        if isWhitespaceOnly c.data then (nodes, textSb, commentSb)
        else (nodes, some ((textSb.getD "") ++ c.data), commentSb)
      | .commentNode =>
        if isWhitespaceOnly c.data then (nodes, textSb, commentSb)
        else (nodes, textSb, some ((commentSb.getD "") ++ c.data))
      | .otherNode => (nodes, textSb, commentSb))
    ([], none, none)
  let (nodes, textSb, commentSb) := st
  let attrs := match textSb with
               | some t => assocSet attrs0 "#text" (.strA t.trim)
               | none => attrs0
  let attrs := match commentSb with
               | some t => assocSet attrs "#comment" (.strA t.trim)
               | none => attrs
  let elm := [AnyV.strA n.data]
  let elm := if attrs.length > 0 then elm ++ [.objA attrs] else elm
  let elm := if nodes.length > 0 then elm ++ [.arrA nodes] else elm
  .arrA elm
termination_by sizeOf n
decreasing_by
  cases n with
  | mk t da a k =>
    have hlt := List.sizeOf_lt_of_mem cc.2
    simp only [HtmlNode.mk.sizeOf_spec]
    simp only [HtmlNode.kids] at hlt
    omega

/-- `fromHTMLArray` (format/xml/html.go): applied to the document's first
child (the Go code dereferences `n.FirstChild`, which the html parser
always produces). -/
def fromHTMLArray (n : HtmlNode) : AnyV :=
  match n.kids.head? with
  | some c => fromHTMLArrayF c
  | none => .nullA

/-- The `hi, _ := in.(format.HTMLIn)` type assertion opening `decodeHTML`:
an absent or differently typed argument leaves the zero `HTMLIn` value. -/
def htmlInOf (inArg : FormatIn) : HTMLInArg :=
  match inArg with
  | .htmlArg h => h
  | _ => ⟨false, false⟩

/-- The body of `decodeHTML` after its type assertion, with the external
`html.ParseWithOptions` call passed in as `parse`.  The Go function stores
the resulting value as the root scalar (`d.Value.V`); the model returns it
alongside the cursor. -/
def decodeHTMLBody (parse : List Bool → Except String HtmlNode) (hi : HTMLInArg) (d : D) :
    AnyV × D :=
  let n := d.bits.length
  let d := if d.err.isSome then d
           else if d.pos + n ≤ d.limit then { d with pos := d.pos + n }
           else d.fail .outOfRange
  match parse d.bits with
  | .error e => (.nullA, fatalf e d)
  | .ok node =>
    let r := if hi.array then fromHTMLArray node else fromHTMLObject node hi
    (r, d)

/-- `decodeHTML` (format/xml/html.go): the `HTMLIn` type assertion
followed by the parse body. -/
def decodeHTML (parse : List Bool → Except String HtmlNode) (inArg : FormatIn) (d : D) :
    AnyV × D :=
  decodeHTMLBody parse (htmlInOf inArg) d

/-- Scenario 1 input: a 20-byte IPv4 header with version 4, ihl 5,
total_length 40, identification 0, no fragmentation, ttl 64, protocol 6,
the correct checksum 0x66ce, source 10.0.0.1, destination 10.0.0.2. -/
def ipv4ScenarioHeader : List Nat :=
  [0x45, 0x00, 0x00, 0x28, 0x00, 0x00, 0x00, 0x00, 0x40, 0x06, 0x66, 0xCE,
   0x0A, 0x00, 0x00, 0x01, 0x0A, 0x00, 0x00, 0x02]

/-- The result of decoding the scenario 1 header with `decodeIPv4`. -/
def ipv4ScenarioRun : D :=
  runFormat (decodeIPv4 ipv4IpPacketGroup) .nilIn ipv4ScenarioHeader

/-- Scalar of the named leaf among a scope's children. -/
def leafScalar (cs : List Node) (name : String) : Option Scalar :=
  cs.findSome? (fun c => if c.name = name then c.scalar? else none)

/-- The rewrite-time state of the scenario 1 decode: the cursor and
computed checksum just before `decodeIPv4`'s late rewrite of
`header_checksum`. -/
def ipv4ScenarioScan : List Nat × D :=
  ipv4HeaderScan ipv4IpPacketGroup .nilIn (freshD (bytesToBits ipv4ScenarioHeader))

/-- Scenario 3 input: an Ethernet frame with EtherType 0xffff (matched by
no `INET_PACKET` format) and a 4-byte payload. -/
def ethProbeMissFrame : List Nat :=
  [0xFF, 0xFF, 0xFF, 0xFF, 0xFF, 0xFF, 0x00, 0x11, 0x22, 0x33, 0x44, 0x55, 0xFF, 0xFF,
   0xDE, 0xAD, 0xBE, 0xEF]

/-- An Ethernet header with EtherType 0x0800 and an empty payload range:
the IPv4 candidate fails, so `FieldFormatOrRawLen` falls back to a raw
leaf. -/
def ethHeaderOnly0800 : List Nat :=
  [0xFF, 0xFF, 0xFF, 0xFF, 0xFF, 0xFF, 0x00, 0x11, 0x22, 0x33, 0x44, 0x55, 0x08, 0x00]

/-- A load-command cursor with an unknown command 0x99 of size 16. -/
def machoUnknownDemo : D :=
  { bits := bytesToBits [0, 0, 0, 0x99, 0, 0, 0, 16, 0, 0, 0, 0, 0, 0, 0, 0],
    pos := 0, limit := 128, endian := .big, children := [], inArray := false,
    warnings := [], err := none }

/-- A two-leaf scope whose first (non-last) leaf gets rewritten. -/
def lateRewriteDemoD : D :=
  { bits := bytesToBits [0xAB], pos := 8, limit := 8, endian := .big,
    children := [.lf "a" 0 4 { actual := .u 10 }, .lf "b" 4 4 { actual := .u 11 }],
    inArray := false, warnings := [], err := none }

/-- The scenario 2 Ethernet frame: broadcast destination, source
00:11:22:33:44:55, EtherType 0x0800, followed by the scenario IPv4 header
and its 20-byte payload. -/
def ethScenario2Frame : List Nat :=
  [0xFF, 0xFF, 0xFF, 0xFF, 0xFF, 0xFF, 0x00, 0x11, 0x22, 0x33, 0x44, 0x55, 0x08, 0x00] ++
    ipv4ScenarioHeader ++ List.replicate 20 0

/-- The MAC-address leaf scalar emitted by the Ethernet frame body for a
48-bit read at bit `p` (mappers `mapUToEtherSym` then `ActualHex`). -/
def etherMacScalar (bits : List Bool) (p : Nat) : Scalar :=
  { actual := .u (natOfBits (bitSlice bits p 48)),
    sym := some (etherSymStr (natOfBits (bitSlice bits p 48))),
    dispFormat := some .hexFmt }

/-- The `ether_type` leaf scalar emitted by the Ethernet frame body
(mappers `UToSymStr(format.EtherTypeMap)` then `ActualHex`). -/
def etherTypeScalar (bits : List Bool) : Scalar :=
  { actual := .u (natOfBits (bitSlice bits 96 16)),
    sym := (etherTypeMap.find? (fun p => p.1 = natOfBits (bitSlice bits 96 16))).map
      (fun p => p.2),
    dispFormat := some .hexFmt }

/-- The `payload` node of an Ethernet frame decode: the dispatched
sub-tree when some `INET_PACKET` candidate accepts the payload range, the
raw fallback leaf otherwise. -/
def ethPayloadNode (g : Group) (bits : List Bool) : Node :=
  match tryGroup g (.inetPacket (natOfBits (bitSlice bits 96 16)))
      (bitSlice bits 112 (bits.length - 112)) with
  | none => .lf "payload" 112 (bits.length - 112)
      { actual := .bts (bitSlice bits 112 (bits.length - 112)) }
  | some s => .strct "payload" 112 (bits.length - 112)
      (s.children ++ unknownTail (bitSlice bits 112 (bits.length - 112)) s.pos
        (bits.length - 112))

/-- A trivially accepting format: consumes nothing and emits nothing.
Stands in for a registered sub-format candidate in witnesses. -/
def acceptAllFormat : Format := ⟨fun _ d => d⟩

/-- A FLAC metadata-block cursor: type 4 (vorbis_comment), declared
length 2, followed by the 2 comment bytes. -/
def flacDemoD : D := freshD (bytesToBits [0x04, 0x00, 0x00, 0x02, 0xAA, 0xBB])

/-- A big-endian PCAP capture: magic 0xa1b2c3d4, version 2.4, zone 0,
sigfigs 0, snaplen 0xffff, network 1 (Ethernet), no packets. -/
def pcapBECapture : List Nat :=
  [0xA1, 0xB2, 0xC3, 0xD4, 0x00, 0x02, 0x00, 0x04, 0, 0, 0, 0, 0, 0, 0, 0,
   0x00, 0x00, 0xFF, 0xFF, 0x00, 0x00, 0x00, 0x01]

/-- The same capture laid out little-endian: magic bytes d4 c3 b2 a1, all
multi-byte header fields byte-swapped. -/
def pcapLECapture : List Nat :=
  [0xD4, 0xC3, 0xB2, 0xA1, 0x02, 0x00, 0x04, 0x00, 0, 0, 0, 0, 0, 0, 0, 0,
   0xFF, 0xFF, 0x00, 0x00, 0x01, 0x00, 0x00, 0x00]

/-- The 32-bit value at position `p` of the cursor's buffer, read in the
cursor's endianness. -/
def u32AtPos (d : D) (p : Nat) : Nat :=
  applyEndian d.endian 32 (natOfBits (bitSlice d.bits p 32))

/-- `natOfBits` is bounded by the bit count. -/
theorem natOfBits_lt (l : List Bool) : natOfBits l < 2 ^ l.length := by
  suffices h : ∀ (l : List Bool) (a : Nat),
      l.foldl (fun a b => 2 * a + (if b then 1 else 0)) a < (a + 1) * 2 ^ l.length by
    simpa [natOfBits] using h l 0
  intro l
  induction l with
  | nil => intro a; simp
  | cons b t ih =>
    intro a
    calc t.foldl (fun a b => 2 * a + (if b then 1 else 0)) (2 * a + (if b then 1 else 0))
        < (2 * a + (if b then 1 else 0) + 1) * 2 ^ t.length := ih _
      _ ≤ (2 * (a + 1)) * 2 ^ t.length :=
          Nat.mul_le_mul_right _ (by split <;> omega)
      _ = (a + 1) * 2 ^ (t.length + 1) := by ring

/-- `byteRev` is bounded by the byte count. -/
theorem byteRev_lt (w v : Nat) : byteRev w v < 256 ^ w := by
  suffices h : ∀ (l : List Nat) (a : Nat),
      l.foldl (fun a i => a * 256 + v >>> (8 * i) % 256) a < (a + 1) * 256 ^ l.length by
    simpa [byteRev] using h (List.range w) 0
  intro l
  induction l with
  | nil => intro a; simp
  | cons i t ih =>
    intro a
    calc t.foldl (fun a i => a * 256 + v >>> (8 * i) % 256) (a * 256 + v >>> (8 * i) % 256)
        < (a * 256 + v >>> (8 * i) % 256 + 1) * 256 ^ t.length := ih _
      _ ≤ ((a + 1) * 256) * 256 ^ t.length := Nat.mul_le_mul_right _ (by omega)
      _ = (a + 1) * 256 ^ (t.length + 1) := by ring

/-- 32-bit reads are bounded in either endianness. -/
theorem applyEndian32_lt (e : Endian) (v : Nat) (h : v < 2 ^ 32) :
    applyEndian e 32 v < 2 ^ 32 := by
  cases e with
  | big => simpa [applyEndian] using h
  | little => simpa [applyEndian] using byteRev_lt 4 v

/-- `u32AtPos` is a 32-bit value. -/
theorem u32AtPos_lt (d : D) (p : Nat) : u32AtPos d p < 2 ^ 32 := by
  apply applyEndian32_lt
  have h1 := natOfBits_lt (bitSlice d.bits p 32)
  have h2 : (bitSlice d.bits p 32).length ≤ 32 := by simp [bitSlice]
  exact lt_of_lt_of_le h1 (Nat.pow_le_pow_right (by norm_num) h2)

/-- `fieldU` on a cursor whose error slot is set is a no-op. -/
theorem fieldU_err (name : String) (n : Nat) (ms : List Mapper) (d : D) (e : DErr)
    (he : d.err = some e) : fieldU name n ms d = (0, d) := by
  unfold fieldU
  rw [he]
  rfl

/-- `fieldU` when the read passes the frame end. -/
theorem fieldU_oob (name : String) (n : Nat) (ms : List Mapper) (d : D)
    (he : d.err = none) (hd : dupName d name = false) (hn : n ≤ 64)
    (hlim : ¬ d.pos + n ≤ d.limit) :
    fieldU name n ms d = (0, d.fail .outOfRange) := by
  unfold fieldU
  rw [he, hd, rawRead, if_neg hlim]
  simp [Nat.not_lt.mpr hn]

/-- Successful `fieldU`: the value is the endian-interpreted raw read and
one leaf is appended. -/
theorem fieldU_ok (name : String) (n : Nat) (ms : List Mapper) (d : D) (sc : Scalar)
    (he : d.err = none) (hd : dupName d name = false) (hn : n ≤ 64)
    (hlim : d.pos + n ≤ d.limit)
    (hm : applyMappers ms
        { actual := .u (applyEndian d.endian n (natOfBits (bitSlice d.bits d.pos n))) } = .ok sc) :
    fieldU name n ms d =
      (applyEndian d.endian n (natOfBits (bitSlice d.bits d.pos n)),
       { d with pos := d.pos + n, children := d.children ++ [.lf name d.pos n sc] }) := by
  unfold fieldU
  rw [he, hd, rawRead, if_pos hlim]
  simp [Nat.not_lt.mpr hn, hm]

/-- `fieldU` when a mapper fails. -/
theorem fieldU_mapfail (name : String) (n : Nat) (ms : List Mapper) (d : D) (e : DErr)
    (he : d.err = none) (hd : dupName d name = false) (hn : n ≤ 64)
    (hlim : d.pos + n ≤ d.limit)
    (hm : applyMappers ms
        { actual := .u (applyEndian d.endian n (natOfBits (bitSlice d.bits d.pos n))) } = .error e) :
    fieldU name n ms d =
      (applyEndian d.endian n (natOfBits (bitSlice d.bits d.pos n)), d.fail e) := by
  unfold fieldU
  rw [he, hd, rawRead, if_pos hlim]
  simp [Nat.not_lt.mpr hn, hm]

/-- `seekRel` on a cursor whose error slot is set is a no-op. -/
theorem seekRel_err (delta : Int) (d : D) (e : DErr) (he : d.err = some e) :
    seekRel delta d = d := by
  unfold seekRel
  rw [he]
  rfl

/-- Successful `seekRel`. -/
theorem seekRel_ok (delta : Int) (d : D) (he : d.err = none)
    (h : 0 ≤ (d.pos : Int) + delta ∧ (d.pos : Int) + delta ≤ (d.limit : Int)) :
    seekRel delta d = { d with pos := ((d.pos : Int) + delta).toNat } := by
  unfold seekRel
  rw [he, if_pos h]
  rfl

/-- `seekRel` out of range. -/
theorem seekRel_oob (delta : Int) (d : D) (he : d.err = none)
    (h : ¬ (0 ≤ (d.pos : Int) + delta ∧ (d.pos : Int) + delta ≤ (d.limit : Int))) :
    seekRel delta d = d.fail .outOfRange := by
  unfold seekRel
  rw [he, if_neg h]
  rfl

/-- `fieldFormatOrRawLen` on a cursor whose error slot is set is a
no-op. -/
theorem fieldFormatOrRawLen_err (name : String) (len : Int) (g : Group) (inArg : FormatIn)
    (d : D) (e : DErr) (he : d.err = some e) :
    fieldFormatOrRawLen name len g inArg d = d := by
  unfold fieldFormatOrRawLen
  rw [he]
  rfl

/-- `fieldFormatOrRawLen` when a candidate accepts the confined range. -/
theorem fieldFormatOrRawLen_hit (name : String) (len : Int) (g : Group) (inArg : FormatIn)
    (d s : D) (he : d.err = none) (hd : dupName d name = false) (hlen : 0 ≤ len)
    (hlim : d.pos + len.toNat ≤ d.limit)
    (htg : tryGroup g inArg (bitSlice d.bits d.pos len.toNat) = some s) :
    fieldFormatOrRawLen name len g inArg d =
      { d with pos := d.pos + len.toNat,
               children := d.children ++ [.strct name d.pos len.toNat
                 (s.children ++ unknownTail (bitSlice d.bits d.pos len.toNat) s.pos len.toNat)],
               warnings := d.warnings ++ s.warnings } := by
  unfold fieldFormatOrRawLen
  rw [he, hd]
  simp [not_lt.mpr hlen, hlim, htg]

/-- `fieldFormatOrRawLen` when no candidate accepts: the raw fallback
leaf. -/
theorem fieldFormatOrRawLen_miss (name : String) (len : Int) (g : Group) (inArg : FormatIn)
    (d : D) (he : d.err = none) (hd : dupName d name = false) (hlen : 0 ≤ len)
    (hlim : d.pos + len.toNat ≤ d.limit)
    (htg : tryGroup g inArg (bitSlice d.bits d.pos len.toNat) = none) :
    fieldFormatOrRawLen name len g inArg d =
      { d with pos := d.pos + len.toNat,
               children := d.children ++ [.lf name d.pos len.toNat
                 { actual := .bts (bitSlice d.bits d.pos len.toNat) }] } := by
  unfold fieldFormatOrRawLen fieldRawLen
  rw [he, hd]
  simp [not_lt.mpr hlen, hlim, htg, applyMappers]
  rfl

/-- `fieldBool` on a cursor whose error slot is set is a no-op. -/
theorem fieldBool_err (name : String) (ms : List Mapper) (d : D) (e : DErr)
    (he : d.err = some e) : fieldBool name ms d = (false, d) := by
  unfold fieldBool
  rw [he]
  rfl

/-- `fieldBool` when the read passes the frame end. -/
theorem fieldBool_oob (name : String) (ms : List Mapper) (d : D)
    (he : d.err = none) (hd : dupName d name = false)
    (hlim : ¬ d.pos + 1 ≤ d.limit) :
    fieldBool name ms d = (false, d.fail .outOfRange) := by
  unfold fieldBool
  rw [he, hd, rawRead, if_neg hlim]
  rfl

/-- Successful `fieldBool`: a 1-bit boolean leaf is appended. -/
theorem fieldBool_ok (name : String) (ms : List Mapper) (d : D) (sc : Scalar)
    (he : d.err = none) (hd : dupName d name = false)
    (hlim : d.pos + 1 ≤ d.limit)
    (hm : applyMappers ms { actual := .bl (natOfBits (bitSlice d.bits d.pos 1) = 1) } = .ok sc) :
    fieldBool name ms d =
      (decide (natOfBits (bitSlice d.bits d.pos 1) = 1),
       { d with pos := d.pos + 1, children := d.children ++ [.lf name d.pos 1 sc] }) := by
  unfold fieldBool
  rw [he, hd, rawRead, if_pos hlim]
  simp [hm]

/-- `dFormat` on a cursor whose error slot is set is a no-op. -/
theorem dFormat_err (g : Group) (inArg : FormatIn) (d : D) (e : DErr)
    (he : d.err = some e) : dFormat g inArg d = d := by
  unfold dFormat
  rw [he]
  rfl

/-- `fieldFormatLen` on a cursor whose error slot is set is a no-op. -/
theorem fieldFormatLen_err (name : String) (len : Int) (g : Group) (inArg : FormatIn)
    (d : D) (e : DErr) (he : d.err = some e) :
    fieldFormatLen name len g inArg d = d := by
  unfold fieldFormatLen
  rw [he]
  rfl

/-- `fieldFormatLen` when the confined range passes the frame end. -/
theorem fieldFormatLen_oob (name : String) (len : Int) (g : Group) (inArg : FormatIn)
    (d : D) (he : d.err = none) (hd : dupName d name = false) (hlen : 0 ≤ len)
    (hlim : ¬ d.pos + len.toNat ≤ d.limit) :
    fieldFormatLen name len g inArg d = d.fail .outOfRange := by
  unfold fieldFormatLen
  rw [he, hd]
  simp [not_lt.mpr hlen, hlim]

/-- `fieldFormatLen` when no candidate accepts: a decode error. -/
theorem fieldFormatLen_miss (name : String) (len : Int) (g : Group) (inArg : FormatIn)
    (d : D) (he : d.err = none) (hd : dupName d name = false) (hlen : 0 ≤ len)
    (hlim : d.pos + len.toNat ≤ d.limit)
    (htg : tryGroup g inArg (bitSlice d.bits d.pos len.toNat) = none) :
    fieldFormatLen name len g inArg d = d.fail .noFormatMatched := by
  unfold fieldFormatLen
  rw [he, hd]
  simp [not_lt.mpr hlen, hlim, htg]

/-- `fieldFormatLen` when a candidate accepts: position advances by
exactly the confined length, whatever the sub-format consumed. -/
theorem fieldFormatLen_hit (name : String) (len : Int) (g : Group) (inArg : FormatIn)
    (d s : D) (he : d.err = none) (hd : dupName d name = false) (hlen : 0 ≤ len)
    (hlim : d.pos + len.toNat ≤ d.limit)
    (htg : tryGroup g inArg (bitSlice d.bits d.pos len.toNat) = some s) :
    fieldFormatLen name len g inArg d =
      { d with pos := d.pos + len.toNat,
               children := d.children ++ [.strct name d.pos len.toNat
                 (s.children ++ unknownTail (bitSlice d.bits d.pos len.toNat) s.pos len.toNat)],
               warnings := d.warnings ++ s.warnings } := by
  unfold fieldFormatLen
  rw [he, hd]
  simp [not_lt.mpr hlen, hlim, htg]

/-- `fieldS` on a cursor whose error slot is set is a no-op. -/
theorem fieldS_err (name : String) (n : Nat) (ms : List Mapper) (d : D) (e : DErr)
    (he : d.err = some e) : fieldS name n ms d = (0, d) := by
  unfold fieldS
  rw [he]
  rfl

/-- `fieldArray` on a cursor whose error slot is set is a no-op. -/
theorem fieldArray_err (name : String) (body : D → D) (d : D) (e : DErr)
    (he : d.err = some e) : fieldArray name body d = d := by
  unfold fieldArray
  rw [he]
  rfl

/-- A value whose lookup in `loadCommands` misses differs from every value
whose lookup hits. -/
theorem findNone_ne {v k : Nat}
    (h : (loadCommands.find? (fun p => p.1 = v)).isNone = true)
    (hk : (loadCommands.find? (fun p => p.1 = k)).isNone = false) : v ≠ k := by
  intro he
  rw [he, hk] at h
  exact Bool.false_ne_true h

/-- C1: decoding the 20-byte IPv4 header with version=4, ihl=5,
total_length=40, a correct checksum, source 10.0.0.1 and destination
10.0.0.2 produces a `source_ip` leaf with Sym "10.0.0.1", a
`destination_ip` leaf with Sym "10.0.0.2", and a `header_checksum` leaf
annotated "valid" by `ValidateUBytes` applied to the ones-complement
checksum computed over the header bits excluding the checksum field (bits
0..80 and 96..160), which is 0x66ce, matching the leaf's actual value. -/
theorem ipv4_checksum_scenario :
    leafScalar ipv4ScenarioRun.children "source_ip" =
      some { actual := .u 0x0a000001, sym := some "10.0.0.1", dispFormat := some .hexFmt } ∧
    leafScalar ipv4ScenarioRun.children "destination_ip" =
      some { actual := .u 0x0a000002, sym := some "10.0.0.2", dispFormat := some .hexFmt } ∧
    ipv4ChecksumBytes
        (bitSlice (bytesToBits ipv4ScenarioHeader) 0 80 ++
         bitSlice (bytesToBits ipv4ScenarioHeader) 96 64) = [0x66, 0xCE] ∧
    leafScalar ipv4ScenarioRun.children "header_checksum" =
      some { actual := .u 0x66CE, dispFormat := some .hexFmt, validity := some "valid" } := by
  refine ⟨by decide, by decide, by decide, by decide⟩

/-- C2 counterexample: in `decodeIPv4` the late rewrite targets
`header_checksum` when the most recently emitted sibling is
`destination_ip`; the spec's most-recent-sibling rule would reject it, yet
the rewrite succeeds and annotates the leaf "valid". -/
theorem ipv4_late_rewrite_not_last_sibling :
    (ipv4ScenarioScan.2.children.getLast?.map Node.name = some "destination_ip") ∧
    specLateRewriteAllowed ipv4ScenarioScan.2.children "header_checksum" = false ∧
    ((tryScalarFnOn "header_checksum" [validateUBytes ipv4ScenarioScan.1, actualHex]
        ipv4ScenarioScan.2).children.map
      (fun c => (c.name, c.scalar?.map Scalar.validity)) =
      ipv4ScenarioScan.2.children.map
        (fun c => (c.name, if c.name = "header_checksum" then some (some "valid")
                           else c.scalar?.map Scalar.validity))) := by
  refine ⟨by decide, by decide, by decide⟩

/-- C3 counterexample: the Vorbis `packet_type` leaf of the one-byte
packet 0x02 carries Sym "Audio" while its Actual is 0, although the raw
value of its 8-bit range is 2 — the format body normalizes even packet
types to 0 before constructing the scalar. -/
theorem vorbis_packet_type_actual_differs :
    (runFormat (vorbisDecode vorbisCommentGroup) .nilIn [0x02]).err = none ∧
    (runFormat (vorbisDecode vorbisCommentGroup) .nilIn [0x02]).children =
      [.lf "packet_type" 0 8 { actual := .u 0, sym := some "Audio" }] ∧
    natOfBits (bitSlice (bytesToBits [0x02]) 0 8) = 2 ∧ (0 : Nat) ≠ 2 := by
  refine ⟨by decide, rfl, by decide, by decide⟩

/-- C5: for an Ethernet frame whose EtherType (0xffff, rejected fatally by
`decodeIPv4`) matches no format of the `INET_PACKET` group, followed by a
4-byte payload, `FieldFormatOrRawLen` emits `payload` as a raw-bytes leaf
of exactly 32 bits, attaches no sub-tree, and the frame decode completes
without a fatal error. -/
theorem ethernet_probe_miss_raw_payload :
    (runFormat (decodeEthernetFrame inetPacketGroup) .nilIn ethProbeMissFrame).err = none ∧
    (runFormat (decodeEthernetFrame inetPacketGroup) .nilIn ethProbeMissFrame).children =
      [.lf "destination" 0 48
         { actual := .u 0xffffffffffff, sym := some "ff:ff:ff:ff:ff:ff",
           dispFormat := some .hexFmt },
       .lf "source" 48 48
         { actual := .u 0x001122334455, sym := some "00:11:22:33:44:55",
           dispFormat := some .hexFmt },
       .lf "ether_type" 96 16 { actual := .u 0xffff, dispFormat := some .hexFmt },
       .lf "payload" 112 32
         { actual := .bts (bitSlice (bytesToBits ethProbeMissFrame) 112 32) }] := by
  refine ⟨by decide, rfl⟩

/-- C4 counterexample: a successfully decoded Ethernet frame whose
`ether_type` is 0x0800 and whose `payload` is a raw leaf, not an IPv4
sub-tree (the IPv4 sub-decode fails on the empty payload range and
`FieldFormatOrRawLen` falls back to raw bytes). -/
theorem ethernet_0800_payload_not_subtree :
    (runFormat (decodeEthernetFrame inetPacketGroup) .nilIn ethHeaderOnly0800).err = none ∧
    natOfBits (bitSlice (bytesToBits ethHeaderOnly0800) 96 16) = 0x0800 ∧
    ((runFormat (decodeEthernetFrame inetPacketGroup) .nilIn ethHeaderOnly0800).children.getLast?.map
      (fun c => (c.name, c.isLeaf)) = some ("payload", true)) := by
  refine ⟨by decide, by decide, by decide⟩

/-- C9: the Ethernet, IPv4 and HTML format bodies tolerate an absent (nil)
decode input argument: with `nilIn` the input type assertion fails and each
body proceeds exactly as it does for an accepted in-argument (Ethernet as
for a matching link type, IPv4 as for the IPv4 EtherType, HTML as for the
zero `HTMLIn` value). -/
theorem format_bodies_tolerate_nil_in :
    (∀ (g : Group) (d : D),
      decodeEthernetFrame g FormatIn.nilIn d =
        decodeEthernetFrame g (FormatIn.linkFrame linkTypeETHERNET false) d) ∧
    (∀ (g : Group) (d : D),
      decodeIPv4 g FormatIn.nilIn d =
        decodeIPv4 g (FormatIn.inetPacket etherTypeIPv4) d) ∧
    (∀ (parse : List Bool → Except String HtmlNode) (d : D),
      decodeHTML parse FormatIn.nilIn d =
        decodeHTML parse (FormatIn.htmlArg ⟨false, false⟩) d) := by
  refine ⟨fun g d => ?_, fun g d => ?_, fun parse d => ?_⟩
  · simp only [decodeEthernetFrame, etherInCheck]
    simp
  · simp only [decodeIPv4, ipv4InCheck]
    simp
  · have h : htmlInOf (FormatIn.htmlArg ⟨false, false⟩) = htmlInOf FormatIn.nilIn := rfl
    simp only [decodeHTML, h]


/-- C8: for every Mach-O load command whose `cmd` value is not in the
load-command name table (and whose `cmdsize` is at least the 8 header
bytes), the decoder advances the cursor by `(cmdsize - 8) * 8` bits and
attaches no child beyond the already-emitted `cmd` and `cmdsize` leaves:
no raw-bytes leaf is created and the rest of the cursor state is
unchanged. -/
theorem macho_unknown_load_command (a c : Nat) (d : D)
    (he : d.err = none) (hch : d.children = [])
    (hcmd : (loadCommands.find? (fun p => p.1 = u32AtPos d d.pos)).isNone = true)
    (hsz : 8 ≤ u32AtPos d (d.pos + 32))
    (hr : (machoLoadCommandBody a c d).err = none) :
    machoLoadCommandBody a c d =
      { d with pos := d.pos + 64 + (u32AtPos d (d.pos + 32) - 8) * 8,
               children :=
                 [.lf "cmd" d.pos 32
                    { actual := .u (u32AtPos d d.pos), dispFormat := some .hexFmt },
                  .lf "cmdsize" (d.pos + 32) 32
                    { actual := .u (u32AtPos d (d.pos + 32)) }] } := by
  have hq0 : applyEndian d.endian 32 (natOfBits (bitSlice d.bits d.pos 32)) ≠ LC_UUID :=
    findNone_ne hcmd (by decide)
  have hq1 : applyEndian d.endian 32 (natOfBits (bitSlice d.bits d.pos 32)) ≠ LC_SEGMENT :=
    findNone_ne hcmd (by decide)
  have hq2 : applyEndian d.endian 32 (natOfBits (bitSlice d.bits d.pos 32)) ≠ LC_SEGMENT_64 :=
    findNone_ne hcmd (by decide)
  have hq3 : applyEndian d.endian 32 (natOfBits (bitSlice d.bits d.pos 32)) ≠ LC_TWOLEVEL_HINTS :=
    findNone_ne hcmd (by decide)
  have hq4 : applyEndian d.endian 32 (natOfBits (bitSlice d.bits d.pos 32)) ≠ LC_LOAD_DYLIB :=
    findNone_ne hcmd (by decide)
  have hq5 : applyEndian d.endian 32 (natOfBits (bitSlice d.bits d.pos 32)) ≠ LC_ID_DYLIB :=
    findNone_ne hcmd (by decide)
  have hq6 : applyEndian d.endian 32 (natOfBits (bitSlice d.bits d.pos 32)) ≠ LC_LOAD_UPWARD_DYLIB :=
    findNone_ne hcmd (by decide)
  have hq7 : applyEndian d.endian 32 (natOfBits (bitSlice d.bits d.pos 32)) ≠ LC_LOAD_WEAK_DYLIB :=
    findNone_ne hcmd (by decide)
  have hq8 : applyEndian d.endian 32 (natOfBits (bitSlice d.bits d.pos 32)) ≠ LC_LAZY_LOAD_DYLIB :=
    findNone_ne hcmd (by decide)
  have hq9 : applyEndian d.endian 32 (natOfBits (bitSlice d.bits d.pos 32)) ≠ LC_REEXPORT_DYLIB :=
    findNone_ne hcmd (by decide)
  have hq10 : applyEndian d.endian 32 (natOfBits (bitSlice d.bits d.pos 32)) ≠ LC_LOAD_DYLINKER :=
    findNone_ne hcmd (by decide)
  have hq11 : applyEndian d.endian 32 (natOfBits (bitSlice d.bits d.pos 32)) ≠ LC_ID_DYLINKER :=
    findNone_ne hcmd (by decide)
  have hq12 : applyEndian d.endian 32 (natOfBits (bitSlice d.bits d.pos 32)) ≠ LC_DYLD_ENVIRONMENT :=
    findNone_ne hcmd (by decide)
  have hq13 : applyEndian d.endian 32 (natOfBits (bitSlice d.bits d.pos 32)) ≠ LC_RPATH :=
    findNone_ne hcmd (by decide)
  have hq14 : applyEndian d.endian 32 (natOfBits (bitSlice d.bits d.pos 32)) ≠ LC_PREBOUND_DYLIB :=
    findNone_ne hcmd (by decide)
  have hq15 : applyEndian d.endian 32 (natOfBits (bitSlice d.bits d.pos 32)) ≠ LC_THREAD :=
    findNone_ne hcmd (by decide)
  have hq16 : applyEndian d.endian 32 (natOfBits (bitSlice d.bits d.pos 32)) ≠ LC_UNIXTHREAD :=
    findNone_ne hcmd (by decide)
  have hq17 : applyEndian d.endian 32 (natOfBits (bitSlice d.bits d.pos 32)) ≠ LC_ROUTINES :=
    findNone_ne hcmd (by decide)
  have hq18 : applyEndian d.endian 32 (natOfBits (bitSlice d.bits d.pos 32)) ≠ LC_ROUTINES_64 :=
    findNone_ne hcmd (by decide)
  have hq19 : applyEndian d.endian 32 (natOfBits (bitSlice d.bits d.pos 32)) ≠ LC_SUB_UMBRELLA :=
    findNone_ne hcmd (by decide)
  have hq20 : applyEndian d.endian 32 (natOfBits (bitSlice d.bits d.pos 32)) ≠ LC_SUB_LIBRARY :=
    findNone_ne hcmd (by decide)
  have hq21 : applyEndian d.endian 32 (natOfBits (bitSlice d.bits d.pos 32)) ≠ LC_SUB_CLIENT :=
    findNone_ne hcmd (by decide)
  have hq22 : applyEndian d.endian 32 (natOfBits (bitSlice d.bits d.pos 32)) ≠ LC_SUB_FRAMEWORK :=
    findNone_ne hcmd (by decide)
  have hq23 : applyEndian d.endian 32 (natOfBits (bitSlice d.bits d.pos 32)) ≠ LC_SYMTAB :=
    findNone_ne hcmd (by decide)
  have hq24 : applyEndian d.endian 32 (natOfBits (bitSlice d.bits d.pos 32)) ≠ LC_DYSYMTAB :=
    findNone_ne hcmd (by decide)
  have hq25 : applyEndian d.endian 32 (natOfBits (bitSlice d.bits d.pos 32)) ≠ LC_BUILD_VERSION :=
    findNone_ne hcmd (by decide)
  have hq26 : applyEndian d.endian 32 (natOfBits (bitSlice d.bits d.pos 32)) ≠ LC_CODE_SIGNATURE :=
    findNone_ne hcmd (by decide)
  have hq27 : applyEndian d.endian 32 (natOfBits (bitSlice d.bits d.pos 32)) ≠ LC_SEGMENT_SPLIT_INFO :=
    findNone_ne hcmd (by decide)
  have hq28 : applyEndian d.endian 32 (natOfBits (bitSlice d.bits d.pos 32)) ≠ LC_FUNCTION_STARTS :=
    findNone_ne hcmd (by decide)
  have hq29 : applyEndian d.endian 32 (natOfBits (bitSlice d.bits d.pos 32)) ≠ LC_DATA_IN_CODE :=
    findNone_ne hcmd (by decide)
  have hq30 : applyEndian d.endian 32 (natOfBits (bitSlice d.bits d.pos 32)) ≠ LC_DYLIB_CODE_SIGN_DRS :=
    findNone_ne hcmd (by decide)
  have hq31 : applyEndian d.endian 32 (natOfBits (bitSlice d.bits d.pos 32)) ≠ LC_LINKER_OPTIMIZATION_HINT :=
    findNone_ne hcmd (by decide)
  have hq32 : applyEndian d.endian 32 (natOfBits (bitSlice d.bits d.pos 32)) ≠ LC_VERSION_MIN_IPHONEOS :=
    findNone_ne hcmd (by decide)
  have hq33 : applyEndian d.endian 32 (natOfBits (bitSlice d.bits d.pos 32)) ≠ LC_VERSION_MIN_MACOSX :=
    findNone_ne hcmd (by decide)
  have hq34 : applyEndian d.endian 32 (natOfBits (bitSlice d.bits d.pos 32)) ≠ LC_VERSION_MIN_TVOS :=
    findNone_ne hcmd (by decide)
  have hq35 : applyEndian d.endian 32 (natOfBits (bitSlice d.bits d.pos 32)) ≠ LC_VERSION_MIN_WATCHOS :=
    findNone_ne hcmd (by decide)
  have hq36 : applyEndian d.endian 32 (natOfBits (bitSlice d.bits d.pos 32)) ≠ LC_DYLD_INFO :=
    findNone_ne hcmd (by decide)
  have hq37 : applyEndian d.endian 32 (natOfBits (bitSlice d.bits d.pos 32)) ≠ LC_DYLD_INFO_ONLY :=
    findNone_ne hcmd (by decide)
  have hq38 : applyEndian d.endian 32 (natOfBits (bitSlice d.bits d.pos 32)) ≠ LC_MAIN :=
    findNone_ne hcmd (by decide)
  have hq39 : applyEndian d.endian 32 (natOfBits (bitSlice d.bits d.pos 32)) ≠ LC_SOURCE_VERSION :=
    findNone_ne hcmd (by decide)
  have hq40 : applyEndian d.endian 32 (natOfBits (bitSlice d.bits d.pos 32)) ≠ LC_LINKER_OPTION :=
    findNone_ne hcmd (by decide)
  have hq41 : applyEndian d.endian 32 (natOfBits (bitSlice d.bits d.pos 32)) ≠ LC_ENCRYPTION_INFO :=
    findNone_ne hcmd (by decide)
  have hq42 : applyEndian d.endian 32 (natOfBits (bitSlice d.bits d.pos 32)) ≠ LC_ENCRYPTION_INFO_64 :=
    findNone_ne hcmd (by decide)
  have hq43 : applyEndian d.endian 32 (natOfBits (bitSlice d.bits d.pos 32)) ≠ LC_IDFVMLIB :=
    findNone_ne hcmd (by decide)
  have hq44 : applyEndian d.endian 32 (natOfBits (bitSlice d.bits d.pos 32)) ≠ LC_LOADFVMLIB :=
    findNone_ne hcmd (by decide)
  have hfind : loadCommands.find? (fun p => p.1 = u32AtPos d d.pos) = none :=
    Option.isNone_iff_eq_none.mp hcmd
  have hfind2 : List.find?
      (fun p => decide (p.1 = applyEndian d.endian 32 (natOfBits (bitSlice d.bits d.pos 32))))
      loadCommands = none := hfind
  have hd1 : dupName d "cmd" = false := by simp [dupName, hch]
  unfold machoLoadCommandBody at hr ⊢
  by_cases hlim : d.pos + 32 ≤ d.limit
  case neg =>
    rw [fieldU_oob "cmd" 32 [uToSymStr loadCommands, actualHex] d he hd1 (by norm_num) hlim] at hr
    dsimp only [] at hr
    rw [fieldU_err "cmdsize" 32 [] (d.fail .outOfRange) .outOfRange rfl] at hr
    dsimp only [] at hr
    simp only [LC_UUID, LC_SEGMENT, LC_SEGMENT_64, LC_TWOLEVEL_HINTS, LC_LOAD_DYLIB,
      LC_ID_DYLIB, LC_LOAD_UPWARD_DYLIB, LC_LOAD_WEAK_DYLIB, LC_LAZY_LOAD_DYLIB,
      LC_REEXPORT_DYLIB, LC_LOAD_DYLINKER, LC_ID_DYLINKER, LC_DYLD_ENVIRONMENT,
      LC_RPATH, LC_PREBOUND_DYLIB, LC_THREAD, LC_UNIXTHREAD, LC_ROUTINES,
      LC_ROUTINES_64, LC_SUB_UMBRELLA, LC_SUB_LIBRARY, LC_SUB_CLIENT,
      LC_SUB_FRAMEWORK, LC_SYMTAB, LC_DYSYMTAB, LC_BUILD_VERSION, LC_CODE_SIGNATURE,
      LC_SEGMENT_SPLIT_INFO, LC_FUNCTION_STARTS, LC_DATA_IN_CODE,
      LC_DYLIB_CODE_SIGN_DRS, LC_LINKER_OPTIMIZATION_HINT, LC_VERSION_MIN_IPHONEOS,
      LC_VERSION_MIN_MACOSX, LC_VERSION_MIN_TVOS, LC_VERSION_MIN_WATCHOS,
      LC_DYLD_INFO, LC_DYLD_INFO_ONLY, LC_MAIN, LC_SOURCE_VERSION, LC_LINKER_OPTION,
      LC_ENCRYPTION_INFO, LC_ENCRYPTION_INFO_64, LC_IDFVMLIB, LC_LOADFVMLIB] at hr
    norm_num at hr
    rw [show (loadCommands.find? (fun p => p.1 = (0 : Nat))).isNone = true from by decide] at hr
    rw [seekRel_err _ _ .outOfRange rfl] at hr
    simp [D.fail] at hr
  case pos =>
    have hmap : applyMappers [uToSymStr loadCommands, actualHex]
        { actual := .u (applyEndian d.endian 32 (natOfBits (bitSlice d.bits d.pos 32))) } =
        .ok { actual := .u (applyEndian d.endian 32 (natOfBits (bitSlice d.bits d.pos 32))),
              dispFormat := some .hexFmt } := by
      unfold applyMappers List.foldlM uToSymStr
      dsimp only []
      rw [hfind2]
      rfl
    rw [fieldU_ok "cmd" 32 [uToSymStr loadCommands, actualHex] d _ he hd1 (by norm_num) hlim hmap] at hr ⊢
    dsimp only [] at hr ⊢
    simp only [hq0, hq1, hq2, hq3, hq4, hq5, hq6, hq7, hq8, hq9, hq10, hq11, hq12, hq13, hq14, hq15, hq16, hq17, hq18, hq19, hq20, hq21, hq22, hq23, hq24, hq25, hq26, hq27, hq28, hq29, hq30, hq31, hq32, hq33, hq34, hq35, hq36, hq37, hq38, hq39, hq40, hq41, hq42, hq43, hq44, false_or, or_false, or_self, if_false] at hr ⊢
    simp only [hfind2, Option.isNone_none, eq_self_iff_true, if_true] at hr ⊢
    have hd2 : dupName ({ bits := d.bits, pos := d.pos + 32, limit := d.limit, endian := d.endian,
                              children := d.children ++
                                [Node.lf "cmd" d.pos 32
                                  { actual := Val.u (applyEndian d.endian 32
                                      (natOfBits (bitSlice d.bits d.pos 32))),
                                    sym := none, description := none,
                                    dispFormat := some DispF.hexFmt, validity := none }],
                              inArray := d.inArray, warnings := d.warnings, err := d.err } : D) "cmdsize" = false := by
      simp [dupName, hch, Node.name]
    by_cases hlim2 : d.pos + 32 + 32 ≤ d.limit
    case neg =>
      rw [fieldU_oob "cmdsize" 32 []
        ({ bits := d.bits, pos := d.pos + 32, limit := d.limit, endian := d.endian,
                              children := d.children ++
                                [Node.lf "cmd" d.pos 32
                                  { actual := Val.u (applyEndian d.endian 32
                                      (natOfBits (bitSlice d.bits d.pos 32))),
                                    sym := none, description := none,
                                    dispFormat := some DispF.hexFmt, validity := none }],
                              inArray := d.inArray, warnings := d.warnings, err := d.err } : D) he hd2 (by norm_num) hlim2] at hr
      dsimp only [] at hr
      rw [seekRel_err _ _ .outOfRange rfl] at hr
      simp [D.fail] at hr
    case pos =>
      rw [fieldU_ok "cmdsize" 32 []
        ({ bits := d.bits, pos := d.pos + 32, limit := d.limit, endian := d.endian,
                              children := d.children ++
                                [Node.lf "cmd" d.pos 32
                                  { actual := Val.u (applyEndian d.endian 32
                                      (natOfBits (bitSlice d.bits d.pos 32))),
                                    sym := none, description := none,
                                    dispFormat := some DispF.hexFmt, validity := none }],
                              inArray := d.inArray, warnings := d.warnings, err := d.err } : D) _ he hd2 (by norm_num) hlim2 rfl] at hr ⊢
      dsimp only [] at hr ⊢
      have hW : applyEndian d.endian 32 (natOfBits (bitSlice d.bits (d.pos + 32) 32)) < 2 ^ 32 :=
        u32AtPos_lt d (d.pos + 32)
      have hsz2 : 8 ≤ applyEndian d.endian 32 (natOfBits (bitSlice d.bits (d.pos + 32) 32)) := hsz
      have hdelta : i64OfU64
          (goU64sub (applyEndian d.endian 32 (natOfBits (bitSlice d.bits (d.pos + 32) 32))) 8 * 8 % 2 ^ 64) =
          ((applyEndian d.endian 32 (natOfBits (bitSlice d.bits (d.pos + 32) 32)) - 8) * 8 : Nat) := by
        unfold goU64sub i64OfU64
        have h1 : (applyEndian d.endian 32 (natOfBits (bitSlice d.bits (d.pos + 32) 32)) + 2 ^ 64 - 8 % 2 ^ 64) % 2 ^ 64 =
            applyEndian d.endian 32 (natOfBits (bitSlice d.bits (d.pos + 32) 32)) - 8 := by omega
        rw [h1]
        have h2 : (applyEndian d.endian 32 (natOfBits (bitSlice d.bits (d.pos + 32) 32)) - 8) * 8 % 2 ^ 64 =
            (applyEndian d.endian 32 (natOfBits (bitSlice d.bits (d.pos + 32) 32)) - 8) * 8 := by omega
        rw [h2, if_pos (by omega)]
        omega
      rw [hdelta] at hr ⊢
      by_cases hfit : d.pos + 32 + 32 + (applyEndian d.endian 32 (natOfBits (bitSlice d.bits (d.pos + 32) 32)) - 8) * 8 ≤ d.limit
      case neg =>
        rw [seekRel_oob _ ({ bits := d.bits, pos := d.pos + 32 + 32, limit := d.limit, endian := d.endian,
                                    children := d.children ++
                                        [Node.lf "cmd" d.pos 32
                                            { actual := Val.u (applyEndian d.endian 32
                                                (natOfBits (bitSlice d.bits d.pos 32))),
                                              sym := none, description := none,
                                              dispFormat := some DispF.hexFmt,
                                              validity := none }] ++
                                      [Node.lf "cmdsize" (d.pos + 32) 32
                                          { actual := Val.u (applyEndian d.endian 32
                                              (natOfBits (bitSlice d.bits (d.pos + 32) 32))),
                                            sym := none, description := none,
                                            dispFormat := none, validity := none }],
                                    inArray := d.inArray, warnings := d.warnings,
                                    err := d.err } : D) he (by push_cast; omega)] at hr
        simp [D.fail] at hr
      case pos =>
        rw [seekRel_ok _ ({ bits := d.bits, pos := d.pos + 32 + 32, limit := d.limit, endian := d.endian,
                                    children := d.children ++
                                        [Node.lf "cmd" d.pos 32
                                            { actual := Val.u (applyEndian d.endian 32
                                                (natOfBits (bitSlice d.bits d.pos 32))),
                                              sym := none, description := none,
                                              dispFormat := some DispF.hexFmt,
                                              validity := none }] ++
                                      [Node.lf "cmdsize" (d.pos + 32) 32
                                          { actual := Val.u (applyEndian d.endian 32
                                              (natOfBits (bitSlice d.bits (d.pos + 32) 32))),
                                            sym := none, description := none,
                                            dispFormat := none, validity := none }],
                                    inArray := d.inArray, warnings := d.warnings,
                                    err := d.err } : D) he (by constructor <;> (push_cast ; omega))] at hr ⊢
        simp only [u32AtPos, hch, List.nil_append]
        congr 1

/-- Witness for `macho_unknown_load_command` at a concrete unknown
command. -/
theorem macho_unknown_load_command_witness :
    machoLoadCommandBody 64 7 machoUnknownDemo =
      { machoUnknownDemo with
          pos := 0 + 64 + (u32AtPos machoUnknownDemo (0 + 32) - 8) * 8,
          children :=
            [.lf "cmd" 0 32
               { actual := .u (u32AtPos machoUnknownDemo 0), dispFormat := some .hexFmt },
             .lf "cmdsize" (0 + 32) 32
               { actual := .u (u32AtPos machoUnknownDemo (0 + 32)) }] } :=
  macho_unknown_load_command 64 7 machoUnknownDemo rfl rfl (by decide) (by decide)
    (by decide)

/-- C2 (amended): a late scalar rewrite (`TryScalarFn` on the field
obtained by `FieldMustGet`) looks the target up by name among the scope's
emitted children and succeeds for any previously emitted sibling, whatever
its position; in the scenario 1 IPv4 decode the rewrite targets
`header_checksum` (index 12 of 15 children, so not the most recent) and
annotates it "valid". -/
theorem late_rewrite_by_name (d : D) (name : String) (ms : List Mapper) (i : Nat)
    (nm : String) (st ln : Nat) (sc sc2 : Scalar)
    (he : d.err = none)
    (hfind : d.children.findIdx? (fun c => c.name = name) = some i)
    (hget : d.children.get? i = some (.lf nm st ln sc))
    (hm : applyMappers ms sc = .ok sc2) :
    tryScalarFnOn name ms d =
      { d with children := d.children.set i (.lf nm st ln sc2) } ∧
    leafScalar (tryScalarFnOn "header_checksum"
        [validateUBytes ipv4ScenarioScan.1, actualHex] ipv4ScenarioScan.2).children
        "header_checksum" =
      some { actual := .u 0x66CE, dispFormat := some .hexFmt, validity := some "valid" } ∧
    ipv4ScenarioScan.2.children.findIdx? (fun c => c.name = "header_checksum") = some 12 ∧
    ipv4ScenarioScan.2.children.length = 15 := by
  refine ⟨?_, by decide, by decide, by decide⟩
  unfold tryScalarFnOn
  rw [he, hfind]
  dsimp only []
  rw [hget]
  dsimp only []
  rw [hm]
  simp [he]

/-- Witness for `late_rewrite_by_name`: rewriting the non-last sibling
`a` succeeds. -/
theorem late_rewrite_by_name_witness :
    tryScalarFnOn "a" [actualHex] lateRewriteDemoD =
      { lateRewriteDemoD with
          children := lateRewriteDemoD.children.set 0
            (.lf "a" 0 4 { actual := .u 10, dispFormat := some .hexFmt }) } ∧
    leafScalar (tryScalarFnOn "header_checksum"
        [validateUBytes ipv4ScenarioScan.1, actualHex] ipv4ScenarioScan.2).children
        "header_checksum" =
      some { actual := .u 0x66CE, dispFormat := some .hexFmt, validity := some "valid" } ∧
    ipv4ScenarioScan.2.children.findIdx? (fun c => c.name = "header_checksum") = some 12 ∧
    ipv4ScenarioScan.2.children.length = 15 :=
  late_rewrite_by_name lateRewriteDemoD "a" [actualHex] 0 "a" 0 4
    { actual := .u 10 } { actual := .u 10, dispFormat := some .hexFmt }
    rfl rfl rfl rfl

/-- C3 (amended): the Sym-assigning mappers of the embedded formats never
alter `Actual`; the Vorbis `packet_type` leaf, however, is built by the
format body itself: its leaf carries a Sym and its Actual is the raw byte
of its 8-bit range when that byte is odd, and 0 (audio) otherwise. -/
theorem sym_mappers_preserve_actual :
    (∀ (tbl : List (Nat × String)) (s s2 : Scalar),
      uToSymStr tbl s = .ok s2 → s2.actual = s.actual) ∧
    (∀ (tbl : List (Nat × Option String × Option String)) (s s2 : Scalar),
      uToScalarMap tbl s = .ok s2 → s2.actual = s.actual) ∧
    (∀ s s2 : Scalar, mapUToIPv4Sym s = .ok s2 → s2.actual = s.actual) ∧
    (∀ s s2 : Scalar, mapUToEtherSym s = .ok s2 → s2.actual = s.actual) ∧
    (∀ d : D, d.err = none → dupName d "packet_type" = false → d.pos + 8 ≤ d.limit →
      ∃ sym, (fieldUScalarFn "packet_type" vorbisPacketTypeScalar d).2.children =
        d.children ++ [.lf "packet_type" d.pos 8
          { actual := .u (if natOfBits (bitSlice d.bits d.pos 8) % 2 = 0 then 0
                          else natOfBits (bitSlice d.bits d.pos 8)),
            sym := some sym }]) := by
  refine ⟨?_, ?_, ?_, ?_, ?_⟩
  · intro tbl sc sc2 h
    unfold uToSymStr at h
    cases hs : sc.actual with
    | u v =>
      rw [hs] at h
      dsimp only [] at h
      cases hf : tbl.find? (fun p => p.1 = v) with
      | none => rw [hf] at h; dsimp only [] at h; cases h; exact hs
      | some p => rw [hf] at h; dsimp only [] at h; cases h; rfl
    | s v => rw [hs] at h; dsimp only [] at h; cases h; exact hs
    | bl b => rw [hs] at h; dsimp only [] at h; cases h; exact hs
    | bts l => rw [hs] at h; dsimp only [] at h; cases h; exact hs
    | st t => rw [hs] at h; dsimp only [] at h; cases h; exact hs
    | nullV => rw [hs] at h; dsimp only [] at h; cases h; exact hs
  · intro tbl sc sc2 h
    unfold uToScalarMap at h
    cases hs : sc.actual with
    | u v =>
      rw [hs] at h
      dsimp only [] at h
      cases hf : tbl.find? (fun p => p.1 = v) with
      | none => rw [hf] at h; dsimp only [] at h; cases h; exact hs
      | some p => rw [hf] at h; dsimp only [] at h; cases h; rfl
    | s v => rw [hs] at h; dsimp only [] at h; cases h; exact hs
    | bl b => rw [hs] at h; dsimp only [] at h; cases h; exact hs
    | bts l => rw [hs] at h; dsimp only [] at h; cases h; exact hs
    | st t => rw [hs] at h; dsimp only [] at h; cases h; exact hs
    | nullV => rw [hs] at h; dsimp only [] at h; cases h; exact hs
  · intro sc sc2 h
    unfold mapUToIPv4Sym at h
    cases h
    rfl
  · intro sc sc2 h
    unfold mapUToEtherSym at h
    cases h
    rfl
  · intro d he hd hlim
    have hb8 : applyEndian d.endian 8 (natOfBits (bitSlice d.bits d.pos 8)) =
        natOfBits (bitSlice d.bits d.pos 8) := by
      have hlen : (bitSlice d.bits d.pos 8).length ≤ 8 := by simp [bitSlice]
      have hlt : natOfBits (bitSlice d.bits d.pos 8) < 256 :=
        lt_of_lt_of_le (natOfBits_lt _)
          (Nat.pow_le_pow_right (by norm_num) hlen)
      cases hE : d.endian with
      | big => simp [applyEndian]
      | little =>
        have hr1 : List.range 1 = [0] := rfl
        simp only [applyEndian, byteRev, hr1, List.foldl_cons, List.foldl_nil,
          Nat.shiftRight_zero, Nat.zero_mul, Nat.zero_add]
        omega
    unfold fieldUScalarFn vorbisPacketTypeScalar rawU
    rw [he, rawRead, if_pos hlim]
    dsimp only []
    rw [hd, hb8]
    refine ⟨(match packetTypeNames.find?
        (fun p => p.1 = if natOfBits (bitSlice d.bits d.pos 8) % 2 = 0 then 0
                        else natOfBits (bitSlice d.bits d.pos 8)) with
      | some p => p.2
      | none => "unknown"), ?_⟩
    simp [he]

/-- Witness for `sym_mappers_preserve_actual`: each mapper applied at a
concrete scalar, and the `packet_type` emission on the one-byte packet
0x03. -/
theorem sym_mappers_preserve_actual_witness :
    (({ actual := .u 1, sym := some "x" } : Scalar).actual =
      ({ actual := .u 1 } : Scalar).actual) ∧
    (({ actual := .u 1, sym := some "y", description := some "z" } : Scalar).actual =
      ({ actual := .u 1 } : Scalar).actual) ∧
    (({ actual := .u 1, sym := some (ipv4SymStr 1) } : Scalar).actual =
      ({ actual := .u 1 } : Scalar).actual) ∧
    (({ actual := .u 1, sym := some (etherSymStr 1) } : Scalar).actual =
      ({ actual := .u 1 } : Scalar).actual) ∧
    (∃ sym, (fieldUScalarFn "packet_type" vorbisPacketTypeScalar
        (freshD (bytesToBits [3]))).2.children =
      (freshD (bytesToBits [3])).children ++ [.lf "packet_type" 0 8
        { actual := .u (if natOfBits (bitSlice (bytesToBits [3]) 0 8) % 2 = 0 then 0
                        else natOfBits (bitSlice (bytesToBits [3]) 0 8)),
          sym := some sym }]) :=
  ⟨sym_mappers_preserve_actual.1 [(1, "x")] { actual := .u 1 } _ rfl,
   sym_mappers_preserve_actual.2.1 [(1, some "y", some "z")] { actual := .u 1 } _ rfl,
   sym_mappers_preserve_actual.2.2.1 { actual := .u 1 } _ rfl,
   sym_mappers_preserve_actual.2.2.2.1 { actual := .u 1 } _ rfl,
   sym_mappers_preserve_actual.2.2.2.2 (freshD (bytesToBits [3])) rfl (by decide) (by decide)⟩

/-- C4 (amended): every successful Ethernet 802.3 frame decode emits
exactly `destination` (48 bits), `source` (48 bits), `ether_type`
(16 bits) and `payload`, in that order; `destination` and `source` carry
the colon-separated lowercase hex MAC `Sym` (all-ones gives
"ff:ff:ff:ff:ff:ff") and `ether_type` its table `Sym`; the payload node is
the dispatched sub-tree when an `INET_PACKET` candidate accepts the range
and the raw fallback leaf otherwise — in scenario 2 (EtherType 0x0800
over a valid IPv4 packet) it is the IPv4 sub-tree. -/
theorem ethernet_frame_fields :
    (∀ (frame : List Nat) (g : Group),
      (runFormat (decodeEthernetFrame g) FormatIn.nilIn frame).err = none →
      (runFormat (decodeEthernetFrame g) FormatIn.nilIn frame).children =
        [.lf "destination" 0 48 (etherMacScalar (bytesToBits frame) 0),
         .lf "source" 48 48 (etherMacScalar (bytesToBits frame) 48),
         .lf "ether_type" 96 16 (etherTypeScalar (bytesToBits frame)),
         ethPayloadNode g (bytesToBits frame)]) ∧
    etherSymStr 0xffffffffffff = "ff:ff:ff:ff:ff:ff" ∧
    etherTypeScalar (bytesToBits ethScenario2Frame) =
      { actual := .u 0x0800, sym := some "ipv4", dispFormat := some .hexFmt } ∧
    (runFormat (decodeEthernetFrame inetPacketGroup) FormatIn.nilIn ethScenario2Frame).err =
      none ∧
    leafScalar (runFormat (decodeEthernetFrame inetPacketGroup) FormatIn.nilIn
        ethScenario2Frame).children "destination" =
      some { actual := .u 0xffffffffffff, sym := some "ff:ff:ff:ff:ff:ff",
             dispFormat := some .hexFmt } ∧
    (runFormat (decodeEthernetFrame inetPacketGroup) FormatIn.nilIn
        ethScenario2Frame).children.getLast? =
      some (.strct "payload" 112 320
        ((runSub ipv4PacketFormat (.inetPacket etherTypeIPv4)
            (bitSlice (bytesToBits ethScenario2Frame) 112 320)).children)) := by
  refine ⟨?_, by decide, by decide, by decide, by decide, by rfl⟩
  intro frame g hok
  have hfr : runFormat (decodeEthernetFrame g) FormatIn.nilIn frame =
      decodeEthernetFrameBody g
        { bits := bytesToBits frame, pos := 0, limit := (bytesToBits frame).length,
          endian := .big, children := [], inArray := false, warnings := [],
          err := none } := rfl
  rw [hfr] at hok ⊢
  unfold decodeEthernetFrameBody at hok ⊢
  by_cases h1 : 48 ≤ (bytesToBits frame).length
  case neg =>
    rw [fieldU_oob "destination" 48 [mapUToEtherSym, actualHex]
        { bits := bytesToBits frame, pos := 0, limit := (bytesToBits frame).length,
          endian := .big, children := [], inArray := false, warnings := [],
          err := none } rfl rfl (by norm_num) (by dsimp only []; omega)] at hok
    dsimp only [] at hok
    rw [fieldU_err "source" 48 [mapUToEtherSym, actualHex]
        (D.fail
          { bits := bytesToBits frame, pos := 0, limit := (bytesToBits frame).length,
            endian := .big, children := [], inArray := false, warnings := [],
            err := none } .outOfRange) .outOfRange rfl] at hok
    dsimp only [] at hok
    rw [fieldU_err "ether_type" 16 [uToSymStr etherTypeMap, actualHex]
        (D.fail
          { bits := bytesToBits frame, pos := 0, limit := (bytesToBits frame).length,
            endian := .big, children := [], inArray := false, warnings := [],
            err := none } .outOfRange) .outOfRange rfl] at hok
    dsimp only [] at hok
    rw [fieldFormatOrRawLen_err "payload" _ g _
        (D.fail
          { bits := bytesToBits frame, pos := 0, limit := (bytesToBits frame).length,
            endian := .big, children := [], inArray := false, warnings := [],
            err := none } .outOfRange) .outOfRange rfl] at hok
    simp [D.fail] at hok
  case pos =>
    have s1 : fieldU "destination" 48 [mapUToEtherSym, actualHex]
        { bits := bytesToBits frame, pos := 0, limit := (bytesToBits frame).length,
          endian := .big, children := [], inArray := false, warnings := [],
          err := none } =
        (natOfBits (bitSlice (bytesToBits frame) 0 48),
         { bits := bytesToBits frame, pos := 48, limit := (bytesToBits frame).length,
           endian := .big,
           children := [.lf "destination" 0 48 (etherMacScalar (bytesToBits frame) 0)],
           inArray := false, warnings := [], err := none }) := by
      rw [fieldU_ok "destination" 48 [mapUToEtherSym, actualHex]
          { bits := bytesToBits frame, pos := 0, limit := (bytesToBits frame).length,
            endian := .big, children := [], inArray := false, warnings := [],
            err := none }
          (etherMacScalar (bytesToBits frame) 0) rfl rfl (by norm_num)
          (by dsimp only []; omega) rfl]
      rfl
    rw [s1] at hok ⊢
    dsimp only [] at hok ⊢
    by_cases h2 : 96 ≤ (bytesToBits frame).length
    case neg =>
      rw [fieldU_oob "source" 48 [mapUToEtherSym, actualHex]
          { bits := bytesToBits frame, pos := 48, limit := (bytesToBits frame).length,
            endian := .big,
            children := [.lf "destination" 0 48 (etherMacScalar (bytesToBits frame) 0)],
            inArray := false, warnings := [], err := none }
          rfl rfl (by norm_num) (by dsimp only []; omega)] at hok
      dsimp only [] at hok
      rw [fieldU_err "ether_type" 16 [uToSymStr etherTypeMap, actualHex]
          (D.fail
            { bits := bytesToBits frame, pos := 48, limit := (bytesToBits frame).length,
              endian := .big,
              children := [.lf "destination" 0 48 (etherMacScalar (bytesToBits frame) 0)],
              inArray := false, warnings := [], err := none } .outOfRange)
          .outOfRange rfl] at hok
      dsimp only [] at hok
      rw [fieldFormatOrRawLen_err "payload" _ g _
          (D.fail
            { bits := bytesToBits frame, pos := 48, limit := (bytesToBits frame).length,
              endian := .big,
              children := [.lf "destination" 0 48 (etherMacScalar (bytesToBits frame) 0)],
              inArray := false, warnings := [], err := none } .outOfRange)
          .outOfRange rfl] at hok
      simp [D.fail] at hok
    case pos =>
      have s2 : fieldU "source" 48 [mapUToEtherSym, actualHex]
          { bits := bytesToBits frame, pos := 48, limit := (bytesToBits frame).length,
            endian := .big,
            children := [.lf "destination" 0 48 (etherMacScalar (bytesToBits frame) 0)],
            inArray := false, warnings := [], err := none } =
          (natOfBits (bitSlice (bytesToBits frame) 48 48),
           { bits := bytesToBits frame, pos := 96, limit := (bytesToBits frame).length,
             endian := .big,
             children := [.lf "destination" 0 48 (etherMacScalar (bytesToBits frame) 0),
                          .lf "source" 48 48 (etherMacScalar (bytesToBits frame) 48)],
             inArray := false, warnings := [], err := none }) := by
        rw [fieldU_ok "source" 48 [mapUToEtherSym, actualHex]
            { bits := bytesToBits frame, pos := 48, limit := (bytesToBits frame).length,
              endian := .big,
              children := [.lf "destination" 0 48 (etherMacScalar (bytesToBits frame) 0)],
              inArray := false, warnings := [], err := none }
            (etherMacScalar (bytesToBits frame) 48) rfl rfl (by norm_num)
            (by dsimp only []; omega) rfl]
        rfl
      rw [s2] at hok ⊢
      dsimp only [] at hok ⊢
      by_cases h3 : 112 ≤ (bytesToBits frame).length
      case neg =>
        rw [fieldU_oob "ether_type" 16 [uToSymStr etherTypeMap, actualHex]
            { bits := bytesToBits frame, pos := 96, limit := (bytesToBits frame).length,
              endian := .big,
              children := [.lf "destination" 0 48 (etherMacScalar (bytesToBits frame) 0),
                           .lf "source" 48 48 (etherMacScalar (bytesToBits frame) 48)],
              inArray := false, warnings := [], err := none }
            rfl rfl (by norm_num) (by dsimp only []; omega)] at hok
        dsimp only [] at hok
        rw [fieldFormatOrRawLen_err "payload" _ g _
            (D.fail
              { bits := bytesToBits frame, pos := 96, limit := (bytesToBits frame).length,
                endian := .big,
                children := [.lf "destination" 0 48 (etherMacScalar (bytesToBits frame) 0),
                             .lf "source" 48 48 (etherMacScalar (bytesToBits frame) 48)],
                inArray := false, warnings := [], err := none } .outOfRange)
            .outOfRange rfl] at hok
        simp [D.fail] at hok
      case pos =>
        have hmET : applyMappers [uToSymStr etherTypeMap, actualHex]
            { actual := .u (natOfBits (bitSlice (bytesToBits frame) 96 16)) } =
            .ok (etherTypeScalar (bytesToBits frame)) := by
          unfold applyMappers List.foldlM uToSymStr etherTypeScalar
          dsimp only []
          cases hf : List.find?
              (fun p => decide (p.1 = natOfBits (bitSlice (bytesToBits frame) 96 16)))
              etherTypeMap with
          | none => rfl
          | some p => rfl
        have s3 : fieldU "ether_type" 16 [uToSymStr etherTypeMap, actualHex]
            { bits := bytesToBits frame, pos := 96, limit := (bytesToBits frame).length,
              endian := .big,
              children := [.lf "destination" 0 48 (etherMacScalar (bytesToBits frame) 0),
                           .lf "source" 48 48 (etherMacScalar (bytesToBits frame) 48)],
              inArray := false, warnings := [], err := none } =
            (natOfBits (bitSlice (bytesToBits frame) 96 16),
             { bits := bytesToBits frame, pos := 112, limit := (bytesToBits frame).length,
               endian := .big,
               children := [.lf "destination" 0 48 (etherMacScalar (bytesToBits frame) 0),
                            .lf "source" 48 48 (etherMacScalar (bytesToBits frame) 48),
                            .lf "ether_type" 96 16 (etherTypeScalar (bytesToBits frame))],
               inArray := false, warnings := [], err := none }) := by
          rw [fieldU_ok "ether_type" 16 [uToSymStr etherTypeMap, actualHex]
              { bits := bytesToBits frame, pos := 96, limit := (bytesToBits frame).length,
                endian := .big,
                children := [.lf "destination" 0 48 (etherMacScalar (bytesToBits frame) 0),
                             .lf "source" 48 48 (etherMacScalar (bytesToBits frame) 48)],
                inArray := false, warnings := [], err := none }
              (etherTypeScalar (bytesToBits frame)) rfl rfl (by norm_num)
              (by dsimp only []; omega) hmET]
          rfl
        rw [s3] at hok ⊢
        dsimp only [] at hok ⊢
        have ht : ((((bytesToBits frame).length : Int) - ((112 : Nat) : Int))).toNat =
            (bytesToBits frame).length - 112 := by omega
        cases htg : tryGroup g
            (FormatIn.inetPacket (natOfBits (bitSlice (bytesToBits frame) 96 16)))
            (bitSlice (bytesToBits frame) 112 ((bytesToBits frame).length - 112)) with
        | none =>
          rw [fieldFormatOrRawLen_miss "payload"
              (((bytesToBits frame).length : Int) - ((112 : Nat) : Int)) g
              (FormatIn.inetPacket (natOfBits (bitSlice (bytesToBits frame) 96 16)))
              { bits := bytesToBits frame, pos := 112, limit := (bytesToBits frame).length,
                endian := .big,
                children := [.lf "destination" 0 48 (etherMacScalar (bytesToBits frame) 0),
                             .lf "source" 48 48 (etherMacScalar (bytesToBits frame) 48),
                             .lf "ether_type" 96 16 (etherTypeScalar (bytesToBits frame))],
                inArray := false, warnings := [], err := none }
              rfl rfl (by omega) (by dsimp only []; omega)
              (by dsimp only []; rw [ht]; exact htg)]
          dsimp only []
          rw [ht]
          simp only [ethPayloadNode]
          rw [htg]
          rfl
        | some s =>
          rw [fieldFormatOrRawLen_hit "payload"
              (((bytesToBits frame).length : Int) - ((112 : Nat) : Int)) g
              (FormatIn.inetPacket (natOfBits (bitSlice (bytesToBits frame) 96 16)))
              { bits := bytesToBits frame, pos := 112, limit := (bytesToBits frame).length,
                endian := .big,
                children := [.lf "destination" 0 48 (etherMacScalar (bytesToBits frame) 0),
                             .lf "source" 48 48 (etherMacScalar (bytesToBits frame) 48),
                             .lf "ether_type" 96 16 (etherTypeScalar (bytesToBits frame))],
                inArray := false, warnings := [], err := none } s
              rfl rfl (by omega) (by dsimp only []; omega)
              (by dsimp only []; rw [ht]; exact htg)]
          dsimp only []
          rw [ht]
          simp only [ethPayloadNode]
          rw [htg]
          rfl

/-- Witness for `ethernet_frame_fields`: the all-zero 14-byte frame
against the empty dispatch group. -/
theorem ethernet_frame_fields_witness :
    (runFormat (decodeEthernetFrame ([] : Group)) FormatIn.nilIn
      (List.replicate 14 0)).err = none ∧
    (runFormat (decodeEthernetFrame ([] : Group)) FormatIn.nilIn
        (List.replicate 14 0)).children =
      [.lf "destination" 0 48 (etherMacScalar (bytesToBits (List.replicate 14 0)) 0),
       .lf "source" 48 48 (etherMacScalar (bytesToBits (List.replicate 14 0)) 48),
       .lf "ether_type" 96 16 (etherTypeScalar (bytesToBits (List.replicate 14 0))),
       ethPayloadNode [] (bytesToBits (List.replicate 14 0))] :=
  ⟨by decide, ethernet_frame_fields.1 (List.replicate 14 0) [] (by decide)⟩

/-- C6: for every FLAC metadata block of type 4 (vorbis_comment) with
declared length N, a successful decode dispatches the `comment` child
confined to exactly N*8 bits: the child is a struct covering
`[header_end, header_end + N*8)`, the trailing unconsumed part of that
range materializes inside it as an `unknown` leaf (whatever the
sub-format consumed), and the cursor advances exactly 32 + N*8 bits from
the block start, i.e. the block covers the 32-bit header plus N bytes. -/
theorem flac_vorbis_comment_confined (streaminfoG pictureG commentG : Group)
    (inArg : FormatIn) (d : D)
    (he : d.err = none) (hch : d.children = [])
    (htyp : applyEndian d.endian 7 (natOfBits (bitSlice d.bits (d.pos + 1) 7)) = 4)
    (hr : (metadatablockDecode streaminfoG pictureG commentG inArg d).err = none) :
    ∃ s : D,
      tryGroup commentG FormatIn.nilIn
          (bitSlice d.bits (d.pos + 32)
            (applyEndian d.endian 24 (natOfBits (bitSlice d.bits (d.pos + 8) 24)) * 8)) =
        some s ∧
      metadatablockDecode streaminfoG pictureG commentG inArg d =
        { d with
            pos := d.pos + 32 +
              applyEndian d.endian 24 (natOfBits (bitSlice d.bits (d.pos + 8) 24)) * 8,
            children :=
              [.lf "last_block" d.pos 1
                 { actual := .bl (natOfBits (bitSlice d.bits d.pos 1) = 1) },
               .lf "type" (d.pos + 1) 7 { actual := .u 4, sym := some "vorbis_comment" },
               .lf "length" (d.pos + 8) 24
                 { actual := .u (applyEndian d.endian 24
                     (natOfBits (bitSlice d.bits (d.pos + 8) 24))) },
               .strct "comment" (d.pos + 32)
                 (applyEndian d.endian 24 (natOfBits (bitSlice d.bits (d.pos + 8) 24)) * 8)
                 (s.children ++ unknownTail
                   (bitSlice d.bits (d.pos + 32)
                     (applyEndian d.endian 24 (natOfBits (bitSlice d.bits (d.pos + 8) 24)) * 8))
                   s.pos
                   (applyEndian d.endian 24 (natOfBits (bitSlice d.bits (d.pos + 8) 24)) * 8))],
            warnings := d.warnings ++ s.warnings } := by
  obtain ⟨bits, pos, limit, endian, children, inArray, warnings, err⟩ := d
  dsimp only [] at he hch htyp hr ⊢
  subst he hch
  unfold metadatablockDecode at hr ⊢
  by_cases hl1 : pos + 1 ≤ limit
  case neg =>
    rw [fieldBool_oob "last_block" []
        { bits := bits, pos := pos, limit := limit, endian := endian,
          children := [], inArray := inArray, warnings := warnings, err := none }
        rfl (by simp [dupName]) hl1] at hr
    dsimp only [] at hr
    rw [fieldU_err "type" 7 [uToSymStr metadataBlockNames]
        (D.fail
          { bits := bits, pos := pos, limit := limit, endian := endian,
            children := [], inArray := inArray, warnings := warnings, err := none }
          .outOfRange) .outOfRange rfl] at hr
    dsimp only [] at hr
    rw [fieldU_err "length" 24 []
        (D.fail
          { bits := bits, pos := pos, limit := limit, endian := endian,
            children := [], inArray := inArray, warnings := warnings, err := none }
          .outOfRange) .outOfRange rfl] at hr
    dsimp only [] at hr
    rw [if_pos rfl] at hr
    rw [dFormat_err streaminfoG FormatIn.nilIn
        (D.fail
          { bits := bits, pos := pos, limit := limit, endian := endian,
            children := [], inArray := inArray, warnings := warnings, err := none }
          .outOfRange) .outOfRange rfl] at hr
    simp [D.fail] at hr
  case pos =>
    have sb1 : fieldBool "last_block" []
        { bits := bits, pos := pos, limit := limit, endian := endian,
          children := [], inArray := inArray, warnings := warnings, err := none } =
        (decide (natOfBits (bitSlice bits pos 1) = 1),
         { bits := bits, pos := pos + 1, limit := limit, endian := endian,
           children := [.lf "last_block" pos 1
             { actual := .bl (natOfBits (bitSlice bits pos 1) = 1) }],
           inArray := inArray, warnings := warnings, err := none }) := by
      rw [fieldBool_ok "last_block" []
          { bits := bits, pos := pos, limit := limit, endian := endian,
            children := [], inArray := inArray, warnings := warnings, err := none }
          { actual := .bl (natOfBits (bitSlice bits pos 1) = 1) }
          rfl (by simp [dupName]) hl1 rfl]
      rfl
    rw [sb1] at hr ⊢
    dsimp only [] at hr ⊢
    by_cases hl2 : pos + 1 + 7 ≤ limit
    case neg =>
      rw [fieldU_oob "type" 7 [uToSymStr metadataBlockNames]
          { bits := bits, pos := pos + 1, limit := limit, endian := endian,
            children := [.lf "last_block" pos 1
              { actual := .bl (natOfBits (bitSlice bits pos 1) = 1) }],
            inArray := inArray, warnings := warnings, err := none }
          rfl (by simp [dupName, Node.name]) (by norm_num)
          (by dsimp only []; omega)] at hr
      dsimp only [] at hr
      rw [fieldU_err "length" 24 []
          (D.fail
            { bits := bits, pos := pos + 1, limit := limit, endian := endian,
              children := [.lf "last_block" pos 1
                { actual := .bl (natOfBits (bitSlice bits pos 1) = 1) }],
              inArray := inArray, warnings := warnings, err := none }
            .outOfRange) .outOfRange rfl] at hr
      dsimp only [] at hr
      rw [if_pos rfl] at hr
      rw [dFormat_err streaminfoG FormatIn.nilIn
          (D.fail
            { bits := bits, pos := pos + 1, limit := limit, endian := endian,
              children := [.lf "last_block" pos 1
                { actual := .bl (natOfBits (bitSlice bits pos 1) = 1) }],
              inArray := inArray, warnings := warnings, err := none }
            .outOfRange) .outOfRange rfl] at hr
      simp [D.fail] at hr
    case pos =>
      have hmT : applyMappers [uToSymStr metadataBlockNames]
          { actual := .u (applyEndian endian 7 (natOfBits (bitSlice bits (pos + 1) 7))) } =
          .ok { actual := .u 4, sym := some "vorbis_comment" } := by
        rw [htyp]
        rfl
      have s2 : fieldU "type" 7 [uToSymStr metadataBlockNames]
          { bits := bits, pos := pos + 1, limit := limit, endian := endian,
            children := [.lf "last_block" pos 1
              { actual := .bl (natOfBits (bitSlice bits pos 1) = 1) }],
            inArray := inArray, warnings := warnings, err := none } =
          (4,
           { bits := bits, pos := pos + 1 + 7, limit := limit, endian := endian,
             children := [.lf "last_block" pos 1
                            { actual := .bl (natOfBits (bitSlice bits pos 1) = 1) },
                          .lf "type" (pos + 1) 7
                            { actual := .u 4, sym := some "vorbis_comment" }],
             inArray := inArray, warnings := warnings, err := none }) := by
        rw [fieldU_ok "type" 7 [uToSymStr metadataBlockNames]
            { bits := bits, pos := pos + 1, limit := limit, endian := endian,
              children := [.lf "last_block" pos 1
                { actual := .bl (natOfBits (bitSlice bits pos 1) = 1) }],
              inArray := inArray, warnings := warnings, err := none }
            { actual := .u 4, sym := some "vorbis_comment" }
            rfl (by simp [dupName, Node.name]) (by norm_num)
            (by dsimp only []; omega) hmT]
        rw [htyp]
        rfl
      rw [s2] at hr ⊢
      dsimp only [] at hr ⊢
      by_cases hl3 : pos + 1 + 7 + 24 ≤ limit
      case neg =>
        rw [fieldU_oob "length" 24 []
            { bits := bits, pos := pos + 1 + 7, limit := limit, endian := endian,
              children := [.lf "last_block" pos 1
                             { actual := .bl (natOfBits (bitSlice bits pos 1) = 1) },
                           .lf "type" (pos + 1) 7
                             { actual := .u 4, sym := some "vorbis_comment" }],
              inArray := inArray, warnings := warnings, err := none }
            rfl (by simp [dupName, Node.name]) (by norm_num)
            (by dsimp only []; omega)] at hr
        dsimp only [] at hr
        rw [if_neg (by norm_num : ¬ (4 : Nat) = 0), if_pos (rfl : (4 : Nat) = 4)] at hr
        rw [fieldFormatLen_err "comment" _ commentG FormatIn.nilIn
            (D.fail
              { bits := bits, pos := pos + 1 + 7, limit := limit, endian := endian,
                children := [.lf "last_block" pos 1
                               { actual := .bl (natOfBits (bitSlice bits pos 1) = 1) },
                             .lf "type" (pos + 1) 7
                               { actual := .u 4, sym := some "vorbis_comment" }],
                inArray := inArray, warnings := warnings, err := none }
              .outOfRange) .outOfRange rfl] at hr
        simp [D.fail] at hr
      case pos =>
        have s3 : fieldU "length" 24 []
            { bits := bits, pos := pos + 1 + 7, limit := limit, endian := endian,
              children := [.lf "last_block" pos 1
                             { actual := .bl (natOfBits (bitSlice bits pos 1) = 1) },
                           .lf "type" (pos + 1) 7
                             { actual := .u 4, sym := some "vorbis_comment" }],
              inArray := inArray, warnings := warnings, err := none } =
            (applyEndian endian 24 (natOfBits (bitSlice bits (pos + 1 + 7) 24)),
             { bits := bits, pos := pos + 1 + 7 + 24, limit := limit, endian := endian,
               children := [.lf "last_block" pos 1
                              { actual := .bl (natOfBits (bitSlice bits pos 1) = 1) },
                            .lf "type" (pos + 1) 7
                              { actual := .u 4, sym := some "vorbis_comment" },
                            .lf "length" (pos + 1 + 7) 24
                              { actual := .u (applyEndian endian 24
                                  (natOfBits (bitSlice bits (pos + 1 + 7) 24))) }],
               inArray := inArray, warnings := warnings, err := none }) := by
          rw [fieldU_ok "length" 24 []
              { bits := bits, pos := pos + 1 + 7, limit := limit, endian := endian,
                children := [.lf "last_block" pos 1
                               { actual := .bl (natOfBits (bitSlice bits pos 1) = 1) },
                             .lf "type" (pos + 1) 7
                               { actual := .u 4, sym := some "vorbis_comment" }],
                inArray := inArray, warnings := warnings, err := none }
              { actual := .u (applyEndian endian 24
                  (natOfBits (bitSlice bits (pos + 1 + 7) 24))) }
              rfl (by simp [dupName, Node.name]) (by norm_num)
              (by dsimp only []; omega) rfl]
          rfl
        rw [s3] at hr ⊢
        dsimp only [] at hr ⊢
        have hp8 : pos + 1 + 7 = pos + 8 := by omega
        have hp32 : pos + 1 + 7 + 24 = pos + 32 := by omega
        rw [hp8, hp32] at hr ⊢
        have hN : applyEndian endian 24 (natOfBits (bitSlice bits (pos + 8) 24)) < 2 ^ 24 := by
          cases endian with
          | big =>
            refine lt_of_lt_of_le (natOfBits_lt _) (Nat.pow_le_pow_right (by norm_num) ?_)
            simp [bitSlice]
          | little =>
            exact byteRev_lt 3 _
        rw [if_neg (by norm_num : ¬ (4 : Nat) = 0), if_pos (rfl : (4 : Nat) = 4)] at hr ⊢
        have hdelta : i64OfU64
            (applyEndian endian 24 (natOfBits (bitSlice bits (pos + 8) 24)) * 8 % 2 ^ 64) =
            ((applyEndian endian 24 (natOfBits (bitSlice bits (pos + 8) 24)) * 8 : Nat) : Int) := by
          unfold i64OfU64
          have h1 : applyEndian endian 24 (natOfBits (bitSlice bits (pos + 8) 24)) * 8 % 2 ^ 64 =
              applyEndian endian 24 (natOfBits (bitSlice bits (pos + 8) 24)) * 8 := by omega
          rw [h1, h1, if_pos (by omega)]
          omega
        rw [hdelta] at hr ⊢
        by_cases hfit : pos + 32 +
            applyEndian endian 24 (natOfBits (bitSlice bits (pos + 8) 24)) * 8 ≤ limit
        case neg =>
          rw [fieldFormatLen_oob "comment" _ commentG FormatIn.nilIn
              { bits := bits, pos := pos + 32, limit := limit, endian := endian,
                children := [.lf "last_block" pos 1
                               { actual := .bl (natOfBits (bitSlice bits pos 1) = 1) },
                             .lf "type" (pos + 1) 7
                               { actual := .u 4, sym := some "vorbis_comment" },
                             .lf "length" (pos + 8) 24
                               { actual := .u (applyEndian endian 24
                                   (natOfBits (bitSlice bits (pos + 8) 24))) }],
                inArray := inArray, warnings := warnings, err := none }
              rfl (by simp [dupName, Node.name]) (by positivity)
              (by dsimp only []; exact fun hcon => hfit (by omega))] at hr
          simp [D.fail] at hr
        case pos =>
          cases htg : tryGroup commentG FormatIn.nilIn
              (bitSlice bits (pos + 32)
                (applyEndian endian 24 (natOfBits (bitSlice bits (pos + 8) 24)) * 8)) with
          | none =>
            rw [fieldFormatLen_miss "comment" _ commentG FormatIn.nilIn
                { bits := bits, pos := pos + 32, limit := limit, endian := endian,
                  children := [.lf "last_block" pos 1
                                 { actual := .bl (natOfBits (bitSlice bits pos 1) = 1) },
                               .lf "type" (pos + 1) 7
                                 { actual := .u 4, sym := some "vorbis_comment" },
                               .lf "length" (pos + 8) 24
                                 { actual := .u (applyEndian endian 24
                                     (natOfBits (bitSlice bits (pos + 8) 24))) }],
                  inArray := inArray, warnings := warnings, err := none }
                rfl (by simp [dupName, Node.name]) (by positivity)
                (by dsimp only []; omega) (by dsimp only []; exact htg)] at hr
            simp [D.fail] at hr
          | some s =>
            refine ⟨s, rfl, ?_⟩
            rw [fieldFormatLen_hit "comment" _ commentG FormatIn.nilIn
                { bits := bits, pos := pos + 32, limit := limit, endian := endian,
                  children := [.lf "last_block" pos 1
                                 { actual := .bl (natOfBits (bitSlice bits pos 1) = 1) },
                               .lf "type" (pos + 1) 7
                                 { actual := .u 4, sym := some "vorbis_comment" },
                               .lf "length" (pos + 8) 24
                                 { actual := .u (applyEndian endian 24
                                     (natOfBits (bitSlice bits (pos + 8) 24))) }],
                  inArray := inArray, warnings := warnings, err := none } s
                rfl (by simp [dupName, Node.name]) (by positivity)
                (by dsimp only []; omega) (by dsimp only []; exact htg)]
            rfl

/-- Witness for `flac_vorbis_comment_confined`: the demo type-4 block of
declared length 2 with a trivially accepting comment candidate. -/
theorem flac_vorbis_comment_confined_witness :
    ∃ s : D,
      tryGroup [acceptAllFormat] FormatIn.nilIn
          (bitSlice flacDemoD.bits (flacDemoD.pos + 32)
            (applyEndian flacDemoD.endian 24
              (natOfBits (bitSlice flacDemoD.bits (flacDemoD.pos + 8) 24)) * 8)) = some s ∧
      metadatablockDecode [] [] [acceptAllFormat] FormatIn.nilIn flacDemoD =
        { flacDemoD with
            pos := flacDemoD.pos + 32 +
              applyEndian flacDemoD.endian 24
                (natOfBits (bitSlice flacDemoD.bits (flacDemoD.pos + 8) 24)) * 8,
            children :=
              [.lf "last_block" flacDemoD.pos 1
                 { actual := .bl (natOfBits (bitSlice flacDemoD.bits flacDemoD.pos 1) = 1) },
               .lf "type" (flacDemoD.pos + 1) 7
                 { actual := .u 4, sym := some "vorbis_comment" },
               .lf "length" (flacDemoD.pos + 8) 24
                 { actual := .u (applyEndian flacDemoD.endian 24
                     (natOfBits (bitSlice flacDemoD.bits (flacDemoD.pos + 8) 24))) },
               .strct "comment" (flacDemoD.pos + 32)
                 (applyEndian flacDemoD.endian 24
                   (natOfBits (bitSlice flacDemoD.bits (flacDemoD.pos + 8) 24)) * 8)
                 (s.children ++ unknownTail
                   (bitSlice flacDemoD.bits (flacDemoD.pos + 32)
                     (applyEndian flacDemoD.endian 24
                       (natOfBits (bitSlice flacDemoD.bits (flacDemoD.pos + 8) 24)) * 8))
                   s.pos
                   (applyEndian flacDemoD.endian 24
                     (natOfBits (bitSlice flacDemoD.bits (flacDemoD.pos + 8) 24)) * 8))],
            warnings := flacDemoD.warnings ++ s.warnings } :=
  flac_vorbis_comment_confined [] [] [acceptAllFormat] FormatIn.nilIn flacDemoD rfl rfl
    (by decide) (by decide)

/-- C7: a PCAP decode asserts that the 32-bit magic is 0xa1b2c3d4 or
0xd4c3b2a1 — any other value fails with an assertion error — and the magic
value assigns the cursor endianness (big for 0xa1b2c3d4, little for
0xd4c3b2a1) used by every subsequent multi-byte read: the same capture in
the two layouts yields identical `version_major` values although the raw
bit ranges differ. -/
theorem pcap_magic_gates_endianness :
    (∀ (linkG tcpG ipv4G : Group) (inArg : FormatIn) (d : D),
      d.err = none → d.children = [] → d.pos + 32 ≤ d.limit →
      applyEndian d.endian 32 (natOfBits (bitSlice d.bits d.pos 32)) ≠ pcapBigEndianMagic →
      applyEndian d.endian 32 (natOfBits (bitSlice d.bits d.pos 32)) ≠ pcapLittleEndianMagic →
      (decodePcap linkG tcpG ipv4G inArg d).err = some (.assertMismatch "AssertU")) ∧
    (runFormat (decodePcap [] [] []) FormatIn.nilIn pcapBECapture).err = none ∧
    leafScalar (runFormat (decodePcap [] [] []) FormatIn.nilIn pcapBECapture).children
        "magic" =
      some { actual := .u 0xa1b2c3d4, sym := some "big_endian",
             dispFormat := some .hexFmt } ∧
    leafScalar (runFormat (decodePcap [] [] []) FormatIn.nilIn pcapBECapture).children
        "version_major" = some { actual := .u 2 } ∧
    (runFormat (decodePcap [] [] []) FormatIn.nilIn pcapLECapture).err = none ∧
    leafScalar (runFormat (decodePcap [] [] []) FormatIn.nilIn pcapLECapture).children
        "magic" =
      some { actual := .u 0xd4c3b2a1, sym := some "little_endian",
             dispFormat := some .hexFmt } ∧
    leafScalar (runFormat (decodePcap [] [] []) FormatIn.nilIn pcapLECapture).children
        "version_major" = some { actual := .u 2 } ∧
    natOfBits (bitSlice (bytesToBits pcapLECapture) 32 16) = 0x0200 := by
  refine ⟨?_, by decide, by decide, by decide, by decide, by decide, by decide, by decide⟩
  intro linkG tcpG ipv4G inArg d he hch hlim hne1 hne2
  unfold decodePcap
  have hc : ([pcapBigEndianMagic, pcapLittleEndianMagic] : List Nat).contains
      (applyEndian d.endian 32 (natOfBits (bitSlice d.bits d.pos 32))) = false := by
    simp [List.contains, hne1, hne2, Ne.symm hne1, Ne.symm hne2]
  have hm : applyMappers
      [assertU [pcapBigEndianMagic, pcapLittleEndianMagic], uToSymStr endianMap, actualHex]
      { actual := .u (applyEndian d.endian 32 (natOfBits (bitSlice d.bits d.pos 32))) } =
      .error (.assertMismatch "AssertU") := by
    unfold applyMappers List.foldlM assertU
    dsimp only []
    rw [show Scalar.actualU
        { actual := .u (applyEndian d.endian 32 (natOfBits (bitSlice d.bits d.pos 32))) } =
        applyEndian d.endian 32 (natOfBits (bitSlice d.bits d.pos 32)) from rfl]
    rw [hc]
    rfl
  rw [fieldU_mapfail "magic" 32
      [assertU [pcapBigEndianMagic, pcapLittleEndianMagic], uToSymStr endianMap, actualHex]
      d (.assertMismatch "AssertU") he (by simp [dupName, hch]) (by norm_num) hlim hm]
  dsimp only []
  rw [if_pos (show (D.fail d (DErr.assertMismatch "AssertU")).err.isSome = true from rfl)]
  rw [fieldU_err "version_major" 16 [] (D.fail d (.assertMismatch "AssertU"))
      (.assertMismatch "AssertU") rfl]
  dsimp only []
  rw [fieldU_err "version_minor" 16 [] (D.fail d (.assertMismatch "AssertU"))
      (.assertMismatch "AssertU") rfl]
  dsimp only []
  rw [fieldS_err "thiszone" 32 [] (D.fail d (.assertMismatch "AssertU"))
      (.assertMismatch "AssertU") rfl]
  dsimp only []
  rw [fieldU_err "sigfigs" 32 [] (D.fail d (.assertMismatch "AssertU"))
      (.assertMismatch "AssertU") rfl]
  dsimp only []
  rw [fieldU_err "snaplen" 32 [] (D.fail d (.assertMismatch "AssertU"))
      (.assertMismatch "AssertU") rfl]
  dsimp only []
  rw [fieldU_err "network" 32 [uToSymStr linkTypeMap] (D.fail d (.assertMismatch "AssertU"))
      (.assertMismatch "AssertU") rfl]
  dsimp only []
  rw [fieldArray_err "packets" _ (D.fail d (.assertMismatch "AssertU"))
      (.assertMismatch "AssertU") rfl]
  rw [fieldArray_err "ipv4_reassembled" _ (D.fail d (.assertMismatch "AssertU"))
      (.assertMismatch "AssertU") rfl]
  rw [fieldArray_err "tcp_connections" _ (D.fail d (.assertMismatch "AssertU"))
      (.assertMismatch "AssertU") rfl]
  rfl

/-- Witness for `pcap_magic_gates_endianness`: the all-zero magic fails the
assertion. -/
theorem pcap_magic_gates_endianness_witness :
    (decodePcap [] [] [] FormatIn.nilIn (freshD (bytesToBits (List.replicate 24 0)))).err =
      some (.assertMismatch "AssertU") :=
  pcap_magic_gates_endianness.1 [] [] [] FormatIn.nilIn
    (freshD (bytesToBits (List.replicate 24 0))) rfl rfl (by decide) (by decide) (by decide)

end Fq
